import Mathlib

/-!
Verification development for the TerraBuild backend (Rust, axum + sqlx).

The Rust sources are shallowly embedded in Lean:
* `f64` values are modelled by `FP`: exact rationals plus the IEEE-754
  special values NaN and the two infinities.  Rounding is abstracted
  (finite arithmetic is exact) and the sign of zero is conflated; every
  property settled here depends only on the operand/special-value
  structure of the computations (products, differences, division by
  zero), never on rounding, so the abstraction is faithful for them.
* `i32` values are modelled by `Int` (no computation here approaches
  the i32 range), record counters by `Nat` (they start at 0 and are
  only incremented).
* the Postgres store is modelled by lists of rows inside a `Db` record;
  a SQL `ORDER BY k ASC/DESC LIMIT 1` becomes a first-minimal /
  first-maximal selection over the filtered list.
* `async fn ... -> Result<T, AppError>` becomes a pure function
  returning `Except AppError T`, threading the `Db` state explicitly
  where the source writes to the store.
* `serde_json::Value` payloads that the source builds with fixed keys
  are modelled by Lean structures with one field per JSON key.
-/

/-- Model of Rust `f64`: exact rationals plus IEEE special values.
Rounding is abstracted and the zero sign is conflated (see module
comment). -/
inductive FP where
  | finite (q : ℚ)
  | nan
  | inf
  | neginf
deriving DecidableEq

namespace FP

/-- IEEE multiplication on the model: NaN propagates, `0 × ±∞ = NaN`,
finite products are exact. -/
def mul : FP → FP → FP
  | nan, _ => nan
  | _, nan => nan
  | finite q, finite r => finite (q * r)
  | finite q, inf => if q > 0 then inf else if q < 0 then neginf else nan
  | inf, finite q => if q > 0 then inf else if q < 0 then neginf else nan
  | finite q, neginf => if q > 0 then neginf else if q < 0 then inf else nan
  | neginf, finite q => if q > 0 then neginf else if q < 0 then inf else nan
  | inf, inf => inf
  | inf, neginf => neginf
  | neginf, inf => neginf
  | neginf, neginf => inf

/-- IEEE addition on the model: NaN propagates, `∞ + (−∞) = NaN`,
finite sums are exact. -/
def add : FP → FP → FP
  | nan, _ => nan
  | _, nan => nan
  | finite q, finite r => finite (q + r)
  | finite _, inf => inf
  | inf, finite _ => inf
  | finite _, neginf => neginf
  | neginf, finite _ => neginf
  | inf, inf => inf
  | inf, neginf => nan
  | neginf, inf => nan
  | neginf, neginf => neginf

/-- IEEE subtraction on the model: NaN propagates, `∞ − ∞ = NaN`,
finite differences are exact. -/
def sub : FP → FP → FP
  | nan, _ => nan
  | _, nan => nan
  | finite q, finite r => finite (q - r)
  | finite _, inf => neginf
  | inf, finite _ => inf
  | finite _, neginf => inf
  | neginf, finite _ => neginf
  | inf, inf => nan
  | inf, neginf => inf
  | neginf, inf => neginf
  | neginf, neginf => nan

/-- IEEE division on the model: NaN propagates, `0 / 0 = NaN`, a
nonzero finite numerator over zero gives a signed infinity (zero sign
conflated), finite quotients are exact. -/
def div : FP → FP → FP
  | nan, _ => nan
  | _, nan => nan
  | finite q, finite r =>
      if r = 0 then (if q = 0 then nan else if q > 0 then inf else neginf)
      else finite (q / r)
  | finite _, inf => finite 0
  | finite _, neginf => finite 0
  | inf, finite r => if r ≥ 0 then inf else neginf
  | neginf, finite r => if r ≥ 0 then neginf else inf
  | inf, inf => nan
  | inf, neginf => nan
  | neginf, inf => nan
  | neginf, neginf => nan

/-- Rust `f64::min`: when one operand is NaN the other is returned. -/
def fmin : FP → FP → FP
  | nan, y => y
  | x, nan => x
  | neginf, _ => neginf
  | _, neginf => neginf
  | inf, y => y
  | x, inf => x
  | finite q, finite r => finite (min q r)

/-- Rust `f64::max`: when one operand is NaN the other is returned. -/
def fmax : FP → FP → FP
  | nan, y => y
  | x, nan => x
  | inf, _ => inf
  | _, inf => inf
  | neginf, y => y
  | x, neginf => x
  | finite q, finite r => finite (max q r)

/-- Finiteness predicate (`f64::is_finite`). -/
def isFinite : FP → Bool
  | finite _ => true
  | _ => false

/-- Embedding of an integer count into the model (Rust `as f64`). -/
def ofNat (n : Nat) : FP := finite n

end FP

/-- Model of `models.rs` `enum AppError` (the `Database` payload is
reduced to its message). -/
inductive AppError where
  | Database (msg : String)
  | Authentication (msg : String)
  | Authorization (msg : String)
  | Validation (msg : String)
  | NotFound (msg : String)
  | Internal (msg : String)
deriving DecidableEq

/-- Model of the `thiserror` `Display` instance on `AppError`
(`e.to_string()` in the source). -/
def AppError.toMessage : AppError → String
  | .Database m => "Database error: " ++ m
  | .Authentication m => "Authentication error: " ++ m
  | .Authorization m => "Authorization error: " ++ m
  | .Validation m => "Validation error: " ++ m
  | .NotFound m => "Not found: " ++ m
  | .Internal m => "Internal server error: " ++ m

/-- Model of `services/valuation.rs` `calculate_rcn`: RCN (Replacement Cost New)
as the left-associated product the source computes. -/
def calculate_rcn (base_cost sqft market_factor location_factor : FP) : FP :=
  ((base_cost.mul sqft).mul market_factor).mul location_factor

/-- Model of `services/valuation.rs` `apply_depreciation`. -/
def apply_depreciation (rcn percent_good : FP) : FP :=
  rcn.mul percent_good

/-- Payload built by `services/scenario.rs` `run_scenario_calculation`
(one Lean field per JSON key). -/
structure ScenarioCalc where
  in_base_cost_per_sqft : FP
  in_sqft : FP
  in_market_factor : FP
  in_location_factor : FP
  in_percent_good : FP
  rcn : FP
  depreciation_applied : FP
  final_value : FP
  cost_per_sqft : FP
  total_value : FP
deriving DecidableEq

/-- Model of `services/scenario.rs` `run_scenario_calculation`. -/
def run_scenario_calculation (base_cost sqft market_factor location_factor percent_good : FP) :
    ScenarioCalc :=
  let rcn := calculate_rcn base_cost sqft market_factor location_factor
  let final_value := apply_depreciation rcn percent_good
  { in_base_cost_per_sqft := base_cost
    in_sqft := sqft
    in_market_factor := market_factor
    in_location_factor := location_factor
    in_percent_good := percent_good
    rcn := rcn
    depreciation_applied := rcn.sub final_value
    final_value := final_value
    cost_per_sqft := final_value.div sqft
    total_value := final_value }

/-- One element of the `scenarios` array built by `run_scenario_matrix`. -/
structure MatrixEntry where
  scenario_id : Nat
  p_market_factor : FP
  p_location_factor : FP
  p_percent_good : FP
  result : ScenarioCalc
deriving DecidableEq

/-- The `value_range` summary of `calculate_value_range`; the empty
input returns a payload without a `variance` key, hence the `Option`. -/
structure ValueRange where
  vmin : FP
  vmax : FP
  avg : FP
  variance : Option FP
deriving DecidableEq

/-- Model of `services/scenario.rs` `calculate_value_range` applied to the final
values extracted from the scenario entries. -/
def calculate_value_range (scenarios : List MatrixEntry) : ValueRange :=
  let values := scenarios.map (fun s => s.result.final_value)
  if values.isEmpty then
    { vmin := FP.finite 0, vmax := FP.finite 0, avg := FP.finite 0, variance := none }
  else
    let vmin := values.foldl FP.fmin FP.inf
    let vmax := values.foldl FP.fmax FP.neginf
    let avg := (values.foldl FP.add (FP.finite 0)).div (FP.ofNat values.length)
    { vmin := vmin, vmax := vmax, avg := avg, variance := some (vmax.sub vmin) }

/-- Innermost loop of `run_scenario_matrix`: one entry per percent-good
value, threading the running `scenario_id`. -/
def matrixRowsP (base_cost sqft market location : FP) (pgs : List FP) (id0 : Nat) :
    List MatrixEntry :=
  match pgs with
  | [] => []
  | p :: rest =>
      { scenario_id := id0
        p_market_factor := market
        p_location_factor := location
        p_percent_good := p
        result := run_scenario_calculation base_cost sqft market location p } ::
      matrixRowsP base_cost sqft market location rest (id0 + 1)

/-- Middle loop of `run_scenario_matrix` over location factors. -/
def matrixRowsL (base_cost sqft market : FP) (ls pgs : List FP) (id0 : Nat) :
    List MatrixEntry :=
  match ls with
  | [] => []
  | l :: rest =>
      matrixRowsP base_cost sqft market l pgs id0 ++
      matrixRowsL base_cost sqft market rest pgs (id0 + pgs.length)

/-- Outer loop of `run_scenario_matrix` over market factors. -/
def matrixRowsM (base_cost sqft : FP) (ms ls pgs : List FP) (id0 : Nat) :
    List MatrixEntry :=
  match ms with
  | [] => []
  | m :: rest =>
      matrixRowsL base_cost sqft m ls pgs id0 ++
      matrixRowsM base_cost sqft rest ls pgs (id0 + ls.length * pgs.length)

/-- Payload built by `services/scenario.rs` `run_scenario_matrix`. -/
structure MatrixResult where
  base_cost_per_sqft : FP
  sqft : FP
  scenarios : List MatrixEntry
  total_scenarios : Nat
  value_range : ValueRange
deriving DecidableEq

/-- Model of `services/scenario.rs` `run_scenario_matrix`: triple nested loop
over market × location × percent-good, ids starting at 1. -/
def run_scenario_matrix (base_cost sqft : FP)
    (market_factors location_factors percent_goods : List FP) : MatrixResult :=
  let scenarios := matrixRowsM base_cost sqft market_factors location_factors percent_goods 1
  { base_cost_per_sqft := base_cost
    sqft := sqft
    scenarios := scenarios
    total_scenarios := scenarios.length
    value_range := calculate_value_range scenarios }

/-- Calendar date, modelling `chrono::NaiveDate` (per-month day-count
validation is abstracted to the 1..31 range in `parse_date`). -/
structure Date where
  y : Int
  m : Nat
  d : Nat
deriving DecidableEq

/-- Lower-casing of a string, character by character (the standard
library version is opaque to kernel reduction, so the embedding spells
it out; the semantics is that of `str::to_lowercase` on the ASCII
identifiers the source compares). -/
def strLower (s : String) : String :=
  ⟨s.data.map Char.toLower⟩

/-- Nonempty all-digit character list. -/
def isDigitList (cs : List Char) : Bool :=
  !cs.isEmpty && cs.all (fun c => c.isDigit)

/-- Digit list to number (caller guarantees `isDigitList`). -/
def digitsToNat (cs : List Char) : Nat :=
  cs.foldl (fun n c => 10 * n + (c.toNat - 48)) 0

/-- Splitting a character list on a separator (semantics of
`str::split`). -/
def splitOnChar (c : Char) : List Char → List (List Char)
  | [] => [[]]
  | x :: xs =>
      match splitOnChar c xs with
      | [] => [[x]]
      | h :: t => if x = c then [] :: h :: t else (x :: h) :: t

/-- Model of `chrono::NaiveDate::parse_from_str(s, ...)` for the ISO
year-month-day format used throughout the source (per-month day-count
validation abstracted to the 1..31 range). -/
def parse_date (s : String) : Option Date :=
  match splitOnChar '-' s.data with
  | [ys, ms, ds] =>
      if isDigitList ys && isDigitList ms && isDigitList ds then
        let m := digitsToNat ms
        let d := digitsToNat ds
        if 1 ≤ m ∧ m ≤ 12 ∧ 1 ≤ d ∧ d ≤ 31 then some ⟨digitsToNat ys, m, d⟩ else none
      else none
  | _ => none

/-- Unsigned digit run within given bounds, the common core of the
integer parses. -/
def parseDigitsBounded (cs : List Char) (neg : Bool) (lo hi : Int) : Option Int :=
  if isDigitList cs then
    let v : Int := if neg then -(digitsToNat cs : Int) else (digitsToNat cs : Int)
    if lo ≤ v ∧ v ≤ hi then some v else none
  else none

/-- Model of Rust `str::parse::<i32>()`: optional sign, digits, value
within the i32 range. -/
def parse_i32 (s : String) : Option Int :=
  match s.data with
  | '-' :: rest => parseDigitsBounded rest true (-2147483648) 2147483647
  | '+' :: rest => parseDigitsBounded rest false (-2147483648) 2147483647
  | cs => parseDigitsBounded cs false (-2147483648) 2147483647

/-- Decimal digit parts to an exact rational. -/
def decimalToRat (ip fr : List Char) (neg : Bool) : ℚ :=
  let mag : ℚ := (digitsToNat ip : ℚ) + (digitsToNat fr : ℚ) / (10 : ℚ) ^ fr.length
  if neg then -mag else mag

/-- Model of Rust `str::parse::<f64>()` on the plain decimal forms the
domain uses (optional sign, integer part, optional fraction); the
parsed value is exact in the model. -/
def parse_f64 (s : String) : Option FP :=
  let core := fun (cs : List Char) (neg : Bool) =>
    match splitOnChar '.' cs with
    | [ip] =>
        if isDigitList ip then
          some (FP.finite (if neg then -(digitsToNat ip : ℚ) else (digitsToNat ip : ℚ)))
        else none
    | [ip, fr] =>
        if isDigitList ip && isDigitList fr then some (FP.finite (decimalToRat ip fr neg))
        else none
    | _ => none
  match s.data with
  | '-' :: rest => core rest true
  | '+' :: rest => core rest false
  | cs => core cs false

/-- Row of the `cost_table` relation (`models.rs` `CostTable`). -/
structure CostTable where
  id : Int
  imp_type : String
  quality : String
  year : Int
  region : String
  cost_per_sqft : FP
  source : Option String
  notes : Option String
  version : Int
  effective_date : Date
deriving DecidableEq

/-- Row of the `depreciation_schedule` relation. -/
structure DepreciationSchedule where
  id : Int
  schedule_type : String
  effective_age : Int
  percent_good : FP
deriving DecidableEq

/-- Row of the `property` relation (nullable columns are `Option`). -/
structure PropertyRow where
  id : Int
  parcel_id : String
  address : String
  owner : Option String
  imp_type : Option String
  quality : Option String
  year_built : Option Int
  sqft : Option FP
  region : Option String
deriving DecidableEq

/-- Payload built by `calculate_valuation_with_db` (one field per JSON
key; `cs_` fields come from the `cost_source` object, `s_` fields from
the `summary` object). -/
structure ValuationCalc where
  parcel_id : Int
  base_cost_per_sqft : FP
  sqft : FP
  market_factor : FP
  location_factor : FP
  effective_age : Int
  percent_good : FP
  rcn : FP
  final_value : FP
  cs_source : Option String
  cs_version : Int
  cs_effective_date : Date
  s_imp_type : String
  s_quality : String
  s_year_built : Int
  s_region : String
  s_final_value : FP
deriving DecidableEq

/-- Row of the `valuation` relation. -/
structure ValuationRow where
  id : Int
  parcel_id : Int
  imp_type : String
  quality : String
  sqft : FP
  year_built : Int
  region : String
  rcn : FP
  percent_good : FP
  final_value : FP
  calculation_chain : ValuationCalc
  created_by : Option Int
deriving DecidableEq

/-- Scenario input parameters as persisted by the two creation
endpoints. -/
inductive ScenarioParams where
  | single (base_cost sqft market_factor location_factor percent_good : FP)
  | matrix (base_cost sqft : FP) (market_factors location_factors percent_goods : List FP)
deriving DecidableEq

/-- Scenario result payload as persisted by the two creation
endpoints. -/
inductive ScenarioResults where
  | single (c : ScenarioCalc)
  | matrix (m : MatrixResult)
deriving DecidableEq

/-- Row of the `scenario` relation. -/
structure ScenarioRow where
  id : Int
  name : String
  description : Option String
  parameters : ScenarioParams
  results : Option ScenarioResults
  created_by : Option Int
deriving DecidableEq

/-- Row of the `batch_upload` relation; the record counters default to
zero at creation, `completed` models whether `completed_at` is set. -/
structure BatchRecord where
  id : Int
  filename : String
  file_type : String
  status : String
  total_records : Nat
  processed_records : Nat
  error_records : Nat
  error_log : Option String
  completed : Bool
  created_by : Option Int
deriving DecidableEq

/-- Row of the `user` relation. -/
structure UserRow where
  id : Int
  username : String
  password_hash : String
  role : String
deriving DecidableEq

/-- The Postgres store: one list per relation plus the id sequence
(modelled as a single shared counter). -/
structure Db where
  property : List PropertyRow
  cost_table : List CostTable
  depreciation_schedule : List DepreciationSchedule
  valuation : List ValuationRow
  scenario : List ScenarioRow
  batch_upload : List BatchRecord
  users : List UserRow
  next_id : Int
deriving DecidableEq

/-- First element of the list with a minimal key, modelling
`ORDER BY key ASC LIMIT 1` (ties broken by list order, matching an
arbitrary SQL tie-break). -/
def selectFirstMinBy {α : Type} (key : α → Int) : List α → Option α
  | [] => none
  | x :: xs =>
      match selectFirstMinBy key xs with
      | none => some x
      | some y => if key x ≤ key y then some x else some y

/-- First element of the list with a maximal key, modelling
`ORDER BY key DESC LIMIT 1`. -/
def selectFirstMaxBy {α : Type} (key : α → Int) : List α → Option α
  | [] => none
  | x :: xs =>
      match selectFirstMaxBy key xs with
      | none => some x
      | some y => if key y ≤ key x then some x else some y

/-- Model of `services/valuation.rs` `get_cost_factor`: highest-version entry
for the exact (type, quality, year, region) tuple, NotFound when no
entry matches. -/
def get_cost_factor (db : Db) (imp_type quality : String) (year : Int) (region : String) :
    Except AppError CostTable :=
  let matching := db.cost_table.filter fun c =>
    c.imp_type == imp_type && c.quality == quality && c.year == year && c.region == region
  match selectFirstMaxBy (fun c => c.version) matching with
  | some c => .ok c
  | none => .error (.NotFound ("Cost factor not found for " ++ imp_type ++ "/" ++ quality
      ++ "/" ++ toString year ++ "/" ++ region))

/-- Model of `services/valuation.rs` `get_depreciation_factor`: smallest
tabulated age that is at least the requested age; when none exists,
the largest tabulated age of the schedule; NotFound only when the
schedule type has no entries at all. -/
def get_depreciation_factor (db : Db) (schedule_type : String) (effective_age : Int) :
    Except AppError FP :=
  let geq := db.depreciation_schedule.filter fun e =>
    e.schedule_type == schedule_type && effective_age ≤ e.effective_age
  match selectFirstMinBy (fun e => e.effective_age) geq with
  | some dep => .ok dep.percent_good
  | none =>
      let all := db.depreciation_schedule.filter fun e => e.schedule_type == schedule_type
      match selectFirstMaxBy (fun e => e.effective_age) all with
      | some fb => .ok fb.percent_good
      | none => .error (.NotFound ("Depreciation schedule not found for " ++ schedule_type))

/-- Model of `services/valuation.rs` `calculate_valuation_with_db`; the source
reads the current year from the clock, modelled by the `current_year`
parameter. -/
def calculate_valuation_with_db (db : Db) (current_year : Int) (parcel_id : Int)
    (imp_type quality : String) (sqft : FP) (year_built : Int) (region : String)
    (market_factor location_factor : Option FP) : Except AppError ValuationCalc :=
  let effective_age := max (current_year - year_built) 0
  match get_cost_factor db imp_type quality current_year region with
  | .error e => .error e
  | .ok cost_table =>
  match get_depreciation_factor db imp_type effective_age with
  | .error e => .error e
  | .ok percent_good =>
  let market := market_factor.getD (FP.finite (105 / 100))
  let location := location_factor.getD (FP.finite (102 / 100))
  let rcn := calculate_rcn cost_table.cost_per_sqft sqft market location
  let final_value := apply_depreciation rcn percent_good
  let payload : ValuationCalc :=
    { parcel_id := parcel_id
      base_cost_per_sqft := cost_table.cost_per_sqft
      sqft := sqft
      market_factor := market
      location_factor := location
      effective_age := effective_age
      percent_good := percent_good
      rcn := rcn
      final_value := final_value
      cs_source := cost_table.source
      cs_version := cost_table.version
      cs_effective_date := cost_table.effective_date
      s_imp_type := imp_type
      s_quality := quality
      s_year_built := year_built
      s_region := region
      s_final_value := final_value }
  .ok payload

/-- Model of `services/valuation.rs` `save_valuation`: INSERT RETURNING the new
row. -/
def save_valuation (db : Db) (parcel_id : Int) (imp_type quality : String) (sqft : FP)
    (year_built : Int) (region : String) (rcn percent_good final_value : FP)
    (calculation_chain : ValuationCalc) (created_by : Option Int) : ValuationRow × Db :=
  let row : ValuationRow :=
    { id := db.next_id, parcel_id := parcel_id, imp_type := imp_type, quality := quality
      sqft := sqft, year_built := year_built, region := region, rcn := rcn
      percent_good := percent_good, final_value := final_value
      calculation_chain := calculation_chain, created_by := created_by }
  (row, { db with valuation := db.valuation ++ [row], next_id := db.next_id + 1 })

/-- One element of the per-item result list of
`batch_valuate_properties` (`status` is the success/error tag of the
JSON item). -/
inductive BatchItem where
  | success (property_id : Int) (valuation : ValuationCalc)
  | failure (property_id : Int) (error : String)
deriving DecidableEq

/-- The `property_id` carried by a batch item. -/
def BatchItem.propertyId : BatchItem → Int
  | .success pid _ => pid
  | .failure pid _ => pid

/-- Whether the item has status `success`. -/
def BatchItem.isSuccess : BatchItem → Bool
  | .success _ _ => true
  | .failure _ _ => false

/-- Innermost step of one `batch_valuate_properties` iteration: run the
db-backed valuation, persist on success (the source discards the save
error), and produce the per-item entry. -/
def batch_valuate_calc (db : Db) (current_year : Int) (property_id : Int)
    (created_by : Option Int) (imp_type quality : String) (sqft : FP) (year_built : Int)
    (region : String) : BatchItem × Db :=
  match calculate_valuation_with_db db current_year property_id imp_type quality
      sqft year_built region none none with
  | .ok v =>
      let saved := save_valuation db property_id imp_type quality sqft year_built
        region v.rcn v.percent_good v.final_value v created_by
      (.success property_id v, saved.2)
  | .error e => (.failure property_id e.toMessage, db)

/-- Nullable-field check of one `batch_valuate_properties` iteration. -/
def batch_valuate_found (db : Db) (current_year : Int) (property_id : Int)
    (created_by : Option Int) (prop : PropertyRow) : BatchItem × Db :=
  match prop.imp_type, prop.quality, prop.sqft, prop.year_built, prop.region with
  | some imp_type, some quality, some sqft, some year_built, some region =>
      batch_valuate_calc db current_year property_id created_by imp_type quality sqft
        year_built region
  | _, _, _, _, _ => (.failure property_id "Missing required property data", db)

/-- Body of one iteration of the `batch_valuate_properties` loop: look
the property up, then check fields, valuate and persist. -/
def batch_valuate_one (db : Db) (current_year : Int) (property_id : Int)
    (created_by : Option Int) : BatchItem × Db :=
  match db.property.find? (fun p => p.id == property_id) with
  | none => (.failure property_id "Property not found", db)
  | some prop => batch_valuate_found db current_year property_id created_by prop

/-- Model of `services/valuation.rs` `batch_valuate_properties`: sequential loop
over the requested ids, one result entry per id. -/
def batch_valuate_properties (db : Db) (current_year : Int) (property_ids : List Int)
    (created_by : Option Int) : List BatchItem × Db :=
  match property_ids with
  | [] => ([], db)
  | pid :: rest =>
      let step := batch_valuate_one db current_year pid created_by
      let remaining := batch_valuate_properties step.2 current_year rest created_by
      (step.1 :: remaining.1, remaining.2)

/-- Response summary of the `/api/valuation/batch` handler. -/
structure BatchSummary where
  results : List BatchItem
  total_requested : Nat
  successful : Nat
  errors : Nat
deriving DecidableEq

/-- Model of `api/valuation.rs` `batch_valuation`: rejects more than 1000 ids
with Validation, otherwise runs the batch and counts outcomes. -/
def batch_valuation (db : Db) (current_year : Int) (created_by : Option Int)
    (property_ids : List Int) : Except AppError BatchSummary × Db :=
  if property_ids.length > 1000 then
    (.error (.Validation "Batch size cannot exceed 1000 properties"), db)
  else
    let run := batch_valuate_properties db current_year property_ids created_by
    let success_count := (run.1.filter (fun r => r.isSuccess)).length
    (.ok { results := run.1
           total_requested := run.1.length
           successful := success_count
           errors := run.1.length - success_count }, run.2)

/-- Model of `auth.rs` `AuthenticatedUser` (the claims extracted from a
verified token). -/
structure AuthenticatedUser where
  user_id : Int
  username : String
  role : String
deriving DecidableEq

/-- Model of `auth.rs` `enum Role`. -/
inductive Role where
  | Admin
  | Assessor
  | Analyst
  | Viewer
deriving DecidableEq

/-- Model of `auth.rs` `Role::from_str` (lower-cases the claim before
matching); an unrecognised role string is a Validation error. -/
def Role.from_str (role : String) : Except AppError Role :=
  match strLower role with
  | "admin" => .ok .Admin
  | "assessor" => .ok .Assessor
  | "analyst" => .ok .Analyst
  | "viewer" => .ok .Viewer
  | _ => .error (.Validation ("Invalid role: " ++ role))

/-- Model of `auth.rs` `Role::can_access`. -/
def Role.can_access (self required : Role) : Bool :=
  match self, required with
  | .Admin, _ => true
  | .Assessor, .Assessor => true
  | .Assessor, .Analyst => true
  | .Assessor, .Viewer => true
  | .Analyst, .Analyst => true
  | .Analyst, .Viewer => true
  | .Viewer, .Viewer => true
  | _, _ => false

/-- Outcome of the bearer-credential stage of every guard: an
Authentication error when the header is missing/malformed or the token
fails verification (`verify_jwt`), otherwise the extracted user. This
models the `AuthenticatedUser::from_request_parts` call the role
extractors perform first. -/
def AuthOutcome : Type := Except AppError AuthenticatedUser

/-- Model of `auth.rs` `AdminOnly` extractor: authenticate, parse the role,
then require exactly Admin, rejecting with Authorization. -/
def adminOnly (auth : AuthOutcome) : Except AppError Unit :=
  match auth with
  | .error e => .error e
  | .ok user =>
  match Role.from_str user.role with
  | .error e => .error e
  | .ok user_role =>
  if user_role.can_access Role.Admin && user_role == Role.Admin then .ok ()
  else .error (.Authorization "Admin access required")

/-- Model of `auth.rs` `AssessorOrAbove` extractor. -/
def assessorOrAbove (auth : AuthOutcome) : Except AppError Unit :=
  match auth with
  | .error e => .error e
  | .ok user =>
  match Role.from_str user.role with
  | .error e => .error e
  | .ok user_role =>
  match user_role with
  | .Admin => .ok ()
  | .Assessor => .ok ()
  | _ => .error (.Authorization "Assessor access or above required")

/-- Model of `auth.rs` `AnalystOrAbove` extractor. -/
def analystOrAbove (auth : AuthOutcome) : Except AppError Unit :=
  match auth with
  | .error e => .error e
  | .ok user =>
  match Role.from_str user.role with
  | .error e => .error e
  | .ok user_role =>
  match user_role with
  | .Admin => .ok ()
  | .Assessor => .ok ()
  | .Analyst => .ok ()
  | _ => .error (.Authorization "Analyst access or above required")

/-- Model of `api/auth.rs` `CreateUserRequest`. -/
structure CreateUserRequest where
  username : String
  password : String
  role : String
deriving DecidableEq

/-- Model of `api/auth.rs` `register`: the AdminOnly extractor runs before the
body; the body validates the role string, then inserts the user
(a unique-violation on the username maps to Validation). Password
hashing is abstracted to an uninterpreted tag on the password. -/
def register (db : Db) (auth : AuthOutcome) (req : CreateUserRequest) :
    Except AppError UserRow × Db :=
  match adminOnly auth with
  | .error e => (.error e, db)
  | .ok _ =>
      if req.role == "admin" || req.role == "assessor" || req.role == "analyst"
          || req.role == "viewer" then
        if db.users.any (fun u => u.username == req.username) then
          (.error (.Validation "Username already exists"), db)
        else
          let row : UserRow :=
            { id := db.next_id, username := req.username
              password_hash := "hashed:" ++ req.password, role := req.role }
          (.ok row, { db with users := db.users ++ [row], next_id := db.next_id + 1 })
      else
        (.error (.Validation "Invalid role"), db)

/-- Model of `models.rs` `ValuationRequest` body. -/
structure ValuationRequest where
  parcel_id : Int
  imp_type : String
  quality : String
  sqft : FP
  year_built : Int
  region : String
deriving DecidableEq

/-- Body of `api/valuation.rs` `create_valuation` (after the
extractors): verify the property exists, compute the db-backed
valuation, persist and return it. -/
def create_valuation_body (db : Db) (current_year : Int) (user : AuthenticatedUser)
    (req : ValuationRequest) : Except AppError (ValuationRow × ValuationCalc) × Db :=
  match db.property.find? (fun p => p.id == req.parcel_id) with
  | none => (.error (.NotFound ("Property " ++ toString req.parcel_id ++ " not found")), db)
  | some _ =>
      match calculate_valuation_with_db db current_year req.parcel_id req.imp_type
          req.quality req.sqft req.year_built req.region none none with
      | .error e => (.error e, db)
      | .ok v =>
          let saved := save_valuation db req.parcel_id req.imp_type req.quality req.sqft
            req.year_built req.region v.rcn v.percent_good v.final_value v
            (some user.user_id)
          (.ok (saved.1, v), saved.2)

/-- Model of `api/valuation.rs` `create_valuation`: the `AnalystOrAbove`
extractor gates the body. -/
def create_valuation (db : Db) (current_year : Int) (auth : AuthOutcome)
    (user : AuthenticatedUser) (req : ValuationRequest) :
    Except AppError (ValuationRow × ValuationCalc) × Db :=
  match analystOrAbove auth with
  | .error e => (.error e, db)
  | .ok _ => create_valuation_body db current_year user req

/-- Model of `api/scenario.rs` `ScenarioRequest` body. -/
structure ScenarioRequest where
  name : String
  description : Option String
  base_cost : FP
  sqft : FP
  market_factor : FP
  location_factor : FP
  percent_good : FP
deriving DecidableEq

/-- Model of `api/scenario.rs` `MatrixScenarioRequest` body. -/
structure MatrixScenarioRequest where
  name : String
  description : Option String
  base_cost : FP
  sqft : FP
  market_factors : List FP
  location_factors : List FP
  percent_goods : List FP
deriving DecidableEq

/-- Model of `services/scenario.rs` `save_scenario`: INSERT RETURNING the new
row. -/
def save_scenario (db : Db) (name : String) (description : Option String)
    (parameters : ScenarioParams) (results : Option ScenarioResults)
    (created_by : Option Int) : ScenarioRow × Db :=
  let row : ScenarioRow :=
    { id := db.next_id, name := name, description := description
      parameters := parameters, results := results, created_by := created_by }
  (row, { db with scenario := db.scenario ++ [row], next_id := db.next_id + 1 })

/-- Model of `api/scenario.rs` `create_scenario`: runs the pure calculation on
the request fields as given (no validation of any field) and persists
the named scenario with its result payload. -/
def create_scenario (db : Db) (user_id : Int) (req : ScenarioRequest) :
    Except AppError (ScenarioRow × ScenarioCalc) × Db :=
  let result := run_scenario_calculation req.base_cost req.sqft req.market_factor
    req.location_factor req.percent_good
  let params : ScenarioParams := .single req.base_cost req.sqft req.market_factor
    req.location_factor req.percent_good
  let saved := save_scenario db req.name req.description params
    (some (.single result)) (some user_id)
  (.ok (saved.1, result), saved.2)

/-- Model of `api/scenario.rs` `create_matrix_scenario`: rejects with Validation
when the cartesian-product size exceeds 100, before running the matrix
or touching the store; otherwise computes and persists. -/
def create_matrix_scenario (db : Db) (user_id : Int) (req : MatrixScenarioRequest) :
    Except AppError (ScenarioRow × MatrixResult) × Db :=
  let total_scenarios :=
    req.market_factors.length * req.location_factors.length * req.percent_goods.length
  if total_scenarios > 100 then
    (.error (.Validation "Matrix scenario cannot exceed 100 combinations"), db)
  else
    let result := run_scenario_matrix req.base_cost req.sqft req.market_factors
      req.location_factors req.percent_goods
    let params : ScenarioParams := .matrix req.base_cost req.sqft req.market_factors
      req.location_factors req.percent_goods
    let saved := save_scenario db req.name req.description params
      (some (.matrix result)) (some user_id)
    (.ok (saved.1, result), saved.2)

/-- Model of `services/scenario.rs` `get_scenario`. -/
def get_scenario (db : Db) (scenario_id : Int) : Except AppError ScenarioRow :=
  match db.scenario.find? (fun s => s.id == scenario_id) with
  | some s => .ok s
  | none => .error (.NotFound ("Scenario " ++ toString scenario_id ++ " not found"))

/-- Model of `services/scenario.rs` `delete_scenario`: NotFound when the id does
not exist, Authorization unless the caller is the creator or carries
the literal role string for admin, otherwise delete. -/
def delete_scenario (db : Db) (scenario_id : Int) (user_id : Int) (user_role : String) :
    Except AppError Unit × Db :=
  match get_scenario db scenario_id with
  | .error e => (.error e, db)
  | .ok scenario =>
      if scenario.created_by != some user_id && user_role != "admin" then
        (.error (.Authorization "You can only delete your own scenarios"), db)
      else
        (.ok (), { db with scenario := db.scenario.filter (fun s => !(s.id == scenario_id)) })

/-- Model of `api/batch.rs` `get_batch_status`: the SQL filters on the id AND
the caller as creator, so a non-creator (Admin included) falls to the
NotFound branch. -/
def get_batch_status (db : Db) (id : Int) (user : AuthenticatedUser) :
    Except AppError BatchRecord :=
  match db.batch_upload.find? (fun b => b.id == id && b.created_by == some user.user_id) with
  | some b => .ok b
  | none => .error (.NotFound ("Batch upload " ++ toString id ++ " not found"))

/-- Model of `api/batch.rs` `get_batch_status` as routed: the
`AuthenticatedUser` extractor runs before the ownership-filtered
query, so an authentication failure propagates untouched. -/
def get_batch_status_endpoint (db : Db) (id : Int) (auth : AuthOutcome) :
    Except AppError BatchRecord :=
  match auth with
  | .error e => .error e
  | .ok user => get_batch_status db id user

/-- Model of `api/scenario.rs` `delete_scenario_endpoint` as routed: the
`AuthenticatedUser` extractor runs before the ownership check. -/
def delete_scenario_endpoint (db : Db) (id : Int) (auth : AuthOutcome) :
    Except AppError Unit × Db :=
  match auth with
  | .error e => (.error e, db)
  | .ok user => delete_scenario db id user.user_id user.role

/-- Key normalization of `process_csv_record`: lower-case the header
and replace spaces by underscores (fused over the characters; a space
is unchanged by lower-casing, so the order is immaterial). -/
def normalizeKey (h : String) : String :=
  ⟨h.data.map fun c => if c = ' ' then '_' else c.toLower⟩

/-- Field map built by `process_csv_record` from the header row and a
data row: one entry per header position that has a value in the row. -/
def mkFieldMap (headers record : List String) : List (String × String) :=
  headers.enum.filterMap fun p =>
    (record.get? p.1).map fun v => (normalizeKey p.2, v)

/-- Model of `HashMap::get` on the field map: the last insertion for a key wins,
matching HashMap insert-overwrite semantics. -/
def mapGet (m : List (String × String)) (key : String) : Option String :=
  m.reverse.lookup key

/-- Upsert of `process_property_record`: `ON CONFLICT (parcel_id) DO
UPDATE` replacing the mutable fields, plain insert otherwise. -/
def upsert_property (db : Db) (parcel_id address : String)
    (owner imp_type quality : Option String) (year_built : Option Int) (sqft : Option FP)
    (region : Option String) : Db :=
  if db.property.any (fun p => p.parcel_id == parcel_id) then
    { db with property := db.property.map fun p =>
        if p.parcel_id == parcel_id then
          { p with address := address, owner := owner, imp_type := imp_type
                   quality := quality, year_built := year_built, sqft := sqft
                   region := region }
        else p }
  else
    let row : PropertyRow :=
      { id := db.next_id, parcel_id := parcel_id, address := address, owner := owner
        imp_type := imp_type, quality := quality, year_built := year_built
        sqft := sqft, region := region }
    { db with property := db.property ++ [row], next_id := db.next_id + 1 }

/-- The validated fields of a property row. -/
structure PropFields where
  parcel_id : String
  address : String
  owner : Option String
  imp_type : Option String
  quality : Option String
  year_built : Option Int
  sqft : Option FP
  region : Option String
deriving DecidableEq

/-- The required-field chain of `process_property_record` (the `?`
early returns): parcel id and address are required; the numeric fields
are parsed leniently (`.ok()` drops parse failures to NULL). -/
def property_row_fields (data : List (String × String)) : Except AppError PropFields :=
  match mapGet data "parcel_id" with
  | none => .error (.Validation "Missing parcel_id")
  | some parcel_id =>
      match mapGet data "address" with
      | none => .error (.Validation "Missing address")
      | some address =>
          .ok { parcel_id := parcel_id, address := address, owner := mapGet data "owner"
                imp_type := mapGet data "imp_type", quality := mapGet data "quality"
                year_built := (mapGet data "year_built").bind parse_i32
                sqft := (mapGet data "sqft").bind parse_f64
                region := mapGet data "region" }

/-- Model of `api/batch.rs` `process_property_record`: validate the fields,
then upsert by parcel id. -/
def process_property_record (db : Db) (data : List (String × String)) :
    Except AppError Unit × Db :=
  match property_row_fields data with
  | .error e => (.error e, db)
  | .ok f =>
      (.ok (), upsert_property db f.parcel_id f.address f.owner f.imp_type f.quality
        f.year_built f.sqft f.region)

/-- Modelled from the spec: the `cost_table` schema lives in the
migrations directory, which is not under src/; the spec states that
cost-table ingestion "inserts with an implicit version bump keyed by
(type, quality, year, region)" and that the version for a tuple is
monotonically increasing. The missing column default is therefore
modelled as one more than the largest existing version for the tuple
(so 1 for a fresh tuple). -/
def nextVersion (db : Db) (imp_type quality : String) (year : Int) (region : String) : Int :=
  let versions := (db.cost_table.filter fun c =>
    c.imp_type == imp_type && c.quality == quality && c.year == year && c.region == region).map
      fun c => c.version
  1 + versions.foldl max 0

/-- Insert of `process_cost_table_record`. The statement carries
`ON CONFLICT (imp_type, quality, year, region, version) DO UPDATE`,
but with the spec-modelled fresh version the inserted key never
collides, so the insert arm is the one modelled. -/
def insert_cost_table (db : Db) (imp_type quality : String) (year : Int) (region : String)
    (cost_per_sqft : FP) (source notes : Option String) (effective_date : Date) : Db :=
  let row : CostTable :=
    { id := db.next_id, imp_type := imp_type, quality := quality, year := year
      region := region, cost_per_sqft := cost_per_sqft, source := source, notes := notes
      version := nextVersion db imp_type quality year region
      effective_date := effective_date }
  { db with cost_table := db.cost_table ++ [row], next_id := db.next_id + 1 }

/-- The validated fields of a cost-table row. -/
structure CostFields where
  imp_type : String
  quality : String
  year : Int
  region : String
  cost_per_sqft : FP
  source : Option String
  notes : Option String
  effective_date : Date
deriving DecidableEq

/-- The required-field chain of `process_cost_table_record` (the `?`
early returns): type, quality, year, region and cost are required and
the numeric parses must succeed; a present but unparsable effective
date also fails the row, an absent one defaults to the current date. -/
def cost_row_fields (today : Date) (data : List (String × String)) :
    Except AppError CostFields :=
  match mapGet data "imp_type" with
  | none => .error (.Validation "Missing imp_type")
  | some imp_type =>
      match mapGet data "quality" with
      | none => .error (.Validation "Missing quality")
      | some quality =>
          match mapGet data "year" with
          | none => .error (.Validation "Missing year")
          | some year_s =>
              match parse_i32 year_s with
              | none => .error (.Validation "Invalid year format")
              | some year =>
                  match mapGet data "region" with
                  | none => .error (.Validation "Missing region")
                  | some region =>
                      match mapGet data "cost_per_sqft" with
                      | none => .error (.Validation "Missing cost_per_sqft")
                      | some cost_s =>
                          match parse_f64 cost_s with
                          | none => .error (.Validation "Invalid cost_per_sqft format")
                          | some cost_per_sqft =>
                              match mapGet data "effective_date" with
                              | some date_s =>
                                  match parse_date date_s with
                                  | none => .error (.Validation
                                      "Invalid effective_date format. Use YYYY-MM-DD")
                                  | some d =>
                                      .ok { imp_type := imp_type, quality := quality
                                            year := year, region := region
                                            cost_per_sqft := cost_per_sqft
                                            source := mapGet data "source"
                                            notes := mapGet data "notes"
                                            effective_date := d }
                              | none =>
                                  .ok { imp_type := imp_type, quality := quality
                                        year := year, region := region
                                        cost_per_sqft := cost_per_sqft
                                        source := mapGet data "source"
                                        notes := mapGet data "notes"
                                        effective_date := today }

/-- Model of `api/batch.rs` `process_cost_table_record`: validate the fields,
then insert the versioned row. -/
def process_cost_table_record (db : Db) (today : Date) (data : List (String × String)) :
    Except AppError Unit × Db :=
  match cost_row_fields today data with
  | .error e => (.error e, db)
  | .ok f =>
      (.ok (), insert_cost_table db f.imp_type f.quality f.year f.region f.cost_per_sqft
        f.source f.notes f.effective_date)

/-- Model of `api/batch.rs` `process_csv_record`: classify the row by the
presence of its key fields — property shape, cost-table shape, or a
classification error. -/
def process_csv_record (db : Db) (today : Date) (headers record : List String) :
    Except AppError Unit × Db :=
  let data := mkFieldMap headers record
  if (mapGet data "parcel_id").isSome && (mapGet data "address").isSome then
    process_property_record db data
  else if (mapGet data "imp_type").isSome && (mapGet data "cost_per_sqft").isSome then
    process_cost_table_record db today data
  else
    (.error (.Validation "Unknown record type or missing required fields"), db)

/-- The per-row outcome of `process_csv_record`, which depends only on
the row data, never on the store (the store only influences what an
upsert writes, not whether the row succeeds). -/
def row_result (today : Date) (headers record : List String) : Except AppError Unit :=
  let data := mkFieldMap headers record
  if (mapGet data "parcel_id").isSome && (mapGet data "address").isSome then
    (property_row_fields data).map fun _ => ()
  else if (mapGet data "imp_type").isSome && (mapGet data "cost_per_sqft").isSome then
    (cost_row_fields today data).map fun _ => ()
  else
    .error (.Validation "Unknown record type or missing required fields")

/-- The error-log line a row at 0-based index `idx` contributes, if
any, with the source prefix (`idx + 2` is the 1-based CSV line number
counting the header row). -/
def row_error_line (today : Date) (headers : List String) (idx : Nat)
    (row : Except String (List String)) : Option String :=
  match row with
  | .error msg => some ("Row " ++ toString (idx + 2) ++ ": CSV parsing error: " ++ msg)
  | .ok record =>
      match row_result today headers record with
      | .ok _ => none
      | .error e => some ("Row " ++ toString (idx + 2) ++ ": " ++ e.toMessage)

/-- All error-log lines contributed by the rows, starting at 0-based
index `start`. -/
def row_error_lines (today : Date) (headers : List String)
    (rows : List (Except String (List String))) (start : Nat) : List String :=
  match rows with
  | [] => []
  | row :: rest =>
      match row_error_line today headers start row with
      | none => row_error_lines today headers rest (start + 1)
      | some line => line :: row_error_lines today headers rest (start + 1)

/-- A parsed CSV file: the header row plus, for each data row, either
its fields or the csv-crate row error message. -/
structure CsvData where
  headers : List String
  rows : List (Except String (List String))

/-- Stages at which the source can fail a file as a whole before any
row is processed: undecodable bytes or an unparsable header. -/
inductive CsvInput where
  | undecodable (msg : String)
  | badHeader (msg : String)
  | parsed (data : CsvData)

/-- The progress checkpoint UPDATE (counts only, every 100 rows). -/
def update_batch_counts (db : Db) (batch_id : Int) (total processed errs : Nat) : Db :=
  { db with batch_upload := db.batch_upload.map fun b =>
      if b.id == batch_id then
        { b with total_records := total, processed_records := processed
                 error_records := errs }
      else b }

/-- The final UPDATE of `process_csv_file`: counts plus the joined
error log (NULL when no row failed). -/
def update_batch_final (db : Db) (batch_id : Int) (total processed errs : Nat)
    (error_log : Option String) : Db :=
  { db with batch_upload := db.batch_upload.map fun b =>
      if b.id == batch_id then
        { b with total_records := total, processed_records := processed
                 error_records := errs, error_log := error_log }
      else b }

/-- Per-row loop of `process_csv_file`, threading the 0-based row
index and the accumulated counters, error lines and store. Error lines
carry the source prefix: the 0-based index plus 2, i.e. the 1-based
CSV line number counting the header row. -/
def csvLoop (today : Date) (headers : List String) (batch_id : Int) :
    List (Except String (List String)) → Nat → Nat → Nat → Nat → List String → Db →
    Nat × Nat × Nat × List String × Db
  | [], _, total, processed, errs, errors, db => (total, processed, errs, errors, db)
  | row :: rest, row_num, total, processed, errs, errors, db =>
      let total1 := total + 1
      let step : Nat × Nat × List String × Db :=
        match row with
        | .ok record =>
            let r := process_csv_record db today headers record
            match r.1 with
            | .ok _ => (processed + 1, errs, errors, r.2)
            | .error e =>
                (processed, errs + 1,
                 errors ++ ["Row " ++ toString (row_num + 2) ++ ": " ++ e.toMessage], r.2)
        | .error msg =>
            (processed, errs + 1,
             errors ++ ["Row " ++ toString (row_num + 2) ++ ": CSV parsing error: " ++ msg],
             db)
      let db1 := if total1 % 100 == 0 then
          update_batch_counts step.2.2.2 batch_id total1 step.1 step.2.1
        else step.2.2.2
      csvLoop today headers batch_id rest (row_num + 1) total1 step.1 step.2.1 step.2.2.1 db1

/-- Model of `api/batch.rs` `process_csv_file`: whole-file failures return a
Validation error before any row is touched; otherwise every row is
consumed, the counters and error lines are accumulated, and the final
UPDATE writes them with the joined error log (`none` exactly when no
row failed). Always returns `ok` after the loop. -/
def process_csv_file (db : Db) (batch_id : Int) (today : Date) (input : CsvInput) :
    Except AppError Unit × Db :=
  match input with
  | .undecodable msg => (.error (.Validation ("Invalid UTF-8 content: " ++ msg)), db)
  | .badHeader msg => (.error (.Validation ("CSV header error: " ++ msg)), db)
  | .parsed data =>
      let r := csvLoop today data.headers batch_id data.rows 0 0 0 0 [] db
      let error_log : Option String :=
        if r.2.2.2.1.isEmpty then none else some (String.intercalate "\n" r.2.2.2.1)
      (.ok (), update_batch_final r.2.2.2.2 batch_id r.1 r.2.1 r.2.2.1 error_log)

/-- Model of `api/batch.rs` `process_excel_file`: always a Validation error. -/
def process_excel_file (db : Db) : Except AppError Unit × Db :=
  (.error (.Validation "Excel processing not yet implemented. Please use CSV format."), db)

/-- The UPDATE the spawned task performs after the processing
function returns: status, error log (NULL on success — overwriting
whatever the final per-row update wrote) and completion time. -/
def update_batch_completion (db : Db) (batch_id : Int) (status : String)
    (error_log : Option String) : Db :=
  { db with batch_upload := db.batch_upload.map fun b =>
      if b.id == batch_id then
        { b with status := status, error_log := error_log, completed := true }
      else b }

/-- Body of the task spawned by `upload_batch_file`: dispatch on the
file type, then set the terminal status and the status-level error
log. -/
def run_batch_job (db : Db) (batch_id : Int) (today : Date) (file_type : String)
    (input : CsvInput) : Db :=
  let r :=
    if file_type == "csv" then process_csv_file db batch_id today input
    else if file_type == "excel" then process_excel_file db
    else (.error (.Validation "Unsupported file type"), db)
  match r.1 with
  | .ok _ => update_batch_completion r.2 batch_id "completed" none
  | .error e => update_batch_completion r.2 batch_id "failed" (some e.toMessage)

/-- The INSERT of `upload_batch_file`: a fresh job record in the
`processing` state with zero counters. -/
def create_batch_record (db : Db) (filename file_type : String) (created_by : Int) :
    BatchRecord × Db :=
  let row : BatchRecord :=
    { id := db.next_id, filename := filename, file_type := file_type
      status := "processing", total_records := 0, processed_records := 0
      error_records := 0, error_log := none, completed := false
      created_by := some created_by }
  (row, { db with batch_upload := db.batch_upload ++ [row], next_id := db.next_id + 1 })

/-- Job creation followed by the detached processing task having run to
completion (the fire-and-forget spawn, observed at quiescence).
Returns the job id and the resulting store. -/
def upload_and_process (db : Db) (user_id : Int) (filename file_type : String)
    (today : Date) (input : CsvInput) : Int × Db :=
  let c := create_batch_record db filename file_type user_id
  (c.1.id, run_batch_job c.2 c.1.id today file_type input)

/-- Lookup of a job record by id. -/
def findBatch (db : Db) (id : Int) : Option BatchRecord :=
  db.batch_upload.find? fun b => b.id == id

/-- An empty store, used to build the concrete instances below. -/
def emptyDb : Db := ⟨[], [], [], [], [], [], [], 1⟩

/-- A fixed current date for the concrete instances. -/
def dateT : Date := ⟨2024, 1, 15⟩

/-- Depreciation schedule with ages 5, 10, 20 (spec example). -/
def dbC2 : Db :=
  { emptyDb with
    depreciation_schedule := [⟨1, "res", 5, FP.finite 95⟩,
      ⟨2, "res", 10, FP.finite 80⟩, ⟨3, "res", 20, FP.finite 40⟩]
    next_id := 4 }

/-- Store with one cost factor and one depreciation entry, plus a
property with id 7 (and no property with id 42). -/
def dbC7 : Db :=
  { emptyDb with
    property := [⟨7, "P-7", "1 Main St", none, some "res", some "good", some 2019,
      some (FP.finite 100), some "north"⟩]
    cost_table := [⟨1, "res", "good", 2024, "north", FP.finite 50, some "manual", none, 1,
      dateT⟩]
    depreciation_schedule := [⟨2, "res", 10, FP.finite 1⟩]
    next_id := 8 }

/-- Same store contents as `dbC7`, reused as an independent instance
for the valuation-formula witness. -/
def dbC1 : Db :=
  { emptyDb with
    cost_table := [⟨1, "res", "good", 2024, "north", FP.finite 50, some "manual", none, 1,
      dateT⟩]
    depreciation_schedule := [⟨2, "res", 10, FP.finite 1⟩]
    next_id := 3 }

/-- The payload `calculate_valuation_with_db` produces on `dbC1` for
property 1 (res/good, 100 sqft, built 2019, north) in year 2024, with
the arithmetic written unevaluated. -/
def vC1 : ValuationCalc :=
  { parcel_id := 1
    base_cost_per_sqft := FP.finite 50
    sqft := FP.finite 100
    market_factor := FP.finite (105 / 100)
    location_factor := FP.finite (102 / 100)
    effective_age := 5
    percent_good := FP.finite 1
    rcn := calculate_rcn (FP.finite 50) (FP.finite 100) (FP.finite (105 / 100))
      (FP.finite (102 / 100))
    final_value := apply_depreciation
      (calculate_rcn (FP.finite 50) (FP.finite 100) (FP.finite (105 / 100))
        (FP.finite (102 / 100))) (FP.finite 1)
    cs_source := some "manual"
    cs_version := 1
    cs_effective_date := dateT
    s_imp_type := "res"
    s_quality := "good"
    s_year_built := 2019
    s_region := "north"
    s_final_value := apply_depreciation
      (calculate_rcn (FP.finite 50) (FP.finite 100) (FP.finite (105 / 100))
        (FP.finite (102 / 100))) (FP.finite 1) }

/-- Store with one version-1 cost entry for (res, good, 2024, north). -/
def dbC6 : Db :=
  { emptyDb with
    cost_table := [⟨1, "res", "good", 2024, "north", FP.finite 40, none, none, 1, dateT⟩]
    next_id := 2 }

/-- Field map of a well-formed cost-table CSV row. -/
def dataC6 : List (String × String) :=
  [("imp_type", "res"), ("quality", "good"), ("year", "2024"), ("region", "north"),
   ("cost_per_sqft", "50")]

/-- The validated fields `dataC6` parses to. -/
def fC6 : CostFields := ⟨"res", "good", 2024, "north", FP.finite 50, none, none, dateT⟩

/-- An authenticated analyst principal. -/
def uAnalyst : AuthenticatedUser := ⟨2, "ann", "analyst"⟩

/-- An authenticated admin principal (user id 2, not the creator of
the records in `dbC9`). -/
def uAdminOther : AuthenticatedUser := ⟨2, "root", "admin"⟩

/-- A user-creation request body. -/
def reqUser : CreateUserRequest := ⟨"newuser", "pw", "viewer"⟩

/-- Store with a batch job and a scenario both created by user 1. -/
def dbC9 : Db :=
  { emptyDb with
    batch_upload := [⟨1, "f.csv", "csv", "completed", 10, 10, 0, none, true, some 1⟩]
    scenario := [⟨1, "s1", none,
      .single (FP.finite 1) (FP.finite 1) (FP.finite 1) (FP.finite 1) (FP.finite 1),
      none, some 1⟩]
    next_id := 2 }

/-- Matrix request with 4 × 5 × 4 = 80 combinations. -/
def req454 : MatrixScenarioRequest :=
  ⟨"m80", none, FP.finite 1, FP.finite 1,
   [FP.finite 1, FP.finite 2, FP.finite 3, FP.finite 4],
   [FP.finite 1, FP.finite 2, FP.finite 3, FP.finite 4, FP.finite 5],
   [FP.finite 1, FP.finite 2, FP.finite 3, FP.finite 4]⟩

/-- Matrix request with 5 × 5 × 5 = 125 combinations. -/
def req555 : MatrixScenarioRequest :=
  ⟨"m125", none, FP.finite 1, FP.finite 1,
   [FP.finite 1, FP.finite 2, FP.finite 3, FP.finite 4, FP.finite 5],
   [FP.finite 1, FP.finite 2, FP.finite 3, FP.finite 4, FP.finite 5],
   [FP.finite 1, FP.finite 2, FP.finite 3, FP.finite 4, FP.finite 5]⟩

/-- A property CSV row matching the header of `csv250`. -/
def goodRow : Except String (List String) := .ok ["p1", "addr"]

/-- A row with only a parcel id: classified as neither shape, so it
fails with the classification error. -/
def badRow : Except String (List String) := .ok ["x"]

/-- The spec example: 250 data rows of which the last 10 are
malformed. -/
def csv250 : CsvInput :=
  .parsed ⟨["parcel_id", "address"], List.replicate 240 goodRow ++ List.replicate 10 badRow⟩

/-- A one-row CSV whose single row fails classification. -/
def csv1 : CsvInput := .parsed ⟨["foo"], [.ok ["x"]]⟩

theorem matrixRowsP_length (b s m l : FP) (pgs : List FP) (id0 : Nat) :
    (matrixRowsP b s m l pgs id0).length = pgs.length := by
  induction pgs generalizing id0 with
  | nil => rfl
  | cons p rest ih => simp [matrixRowsP, ih]

theorem matrixRowsL_length (b s m : FP) (ls pgs : List FP) (id0 : Nat) :
    (matrixRowsL b s m ls pgs id0).length = ls.length * pgs.length := by
  induction ls generalizing id0 with
  | nil => simp [matrixRowsL]
  | cons l rest ih =>
      simp [matrixRowsL, List.length_append, matrixRowsP_length, ih, Nat.succ_mul]
      ring

theorem matrixRowsM_length (b s : FP) (ms ls pgs : List FP) (id0 : Nat) :
    (matrixRowsM b s ms ls pgs id0).length = ms.length * (ls.length * pgs.length) := by
  induction ms generalizing id0 with
  | nil => simp [matrixRowsM]
  | cons m rest ih =>
      simp [matrixRowsM, List.length_append, matrixRowsL_length, ih, Nat.succ_mul]
      ring

theorem selectFirstMinBy_eq_none_iff {α : Type} (key : α → Int) (xs : List α) :
    selectFirstMinBy key xs = none ↔ xs = [] := by
  induction xs with
  | nil => simp [selectFirstMinBy]
  | cons x xs ih =>
      cases h : selectFirstMinBy key xs with
      | none => simp [selectFirstMinBy, h]
      | some y => simp only [selectFirstMinBy, h]; split <;> simp

theorem selectFirstMinBy_mem {α : Type} (key : α → Int) (xs : List α) :
    ∀ y, selectFirstMinBy key xs = some y → y ∈ xs := by
  induction xs with
  | nil => intro y h; simp [selectFirstMinBy] at h
  | cons x xs ih =>
      intro y h
      cases h2 : selectFirstMinBy key xs with
      | none =>
          simp only [selectFirstMinBy, h2] at h
          cases h
          exact List.mem_cons_self _ _
      | some z =>
          simp only [selectFirstMinBy, h2] at h
          split at h
          · cases h; exact List.mem_cons_self _ _
          · cases h; exact List.mem_cons_of_mem x (ih _ h2)

theorem selectFirstMinBy_le_all {α : Type} (key : α → Int) (xs : List α) :
    ∀ y, selectFirstMinBy key xs = some y → ∀ x ∈ xs, key y ≤ key x := by
  induction xs with
  | nil => intro y h; simp [selectFirstMinBy] at h
  | cons x xs ih =>
      intro y h
      cases h2 : selectFirstMinBy key xs with
      | none =>
          have hnil : xs = [] := (selectFirstMinBy_eq_none_iff key xs).mp h2
          simp only [selectFirstMinBy, h2] at h
          cases h
          subst hnil
          intro z hz
          simp at hz
          subst hz
          exact le_refl _
      | some z =>
          simp only [selectFirstMinBy, h2] at h
          intro w hw
          rcases List.mem_cons.mp hw with rfl | hw2
          · split at h
            · cases h; exact le_refl _
            · cases h
              next hlt => exact le_of_lt (lt_of_not_le hlt)
          · split at h
            · next hle => cases h; exact le_trans hle (ih _ h2 w hw2)
            · cases h; exact ih _ h2 w hw2

theorem selectFirstMaxBy_eq_none_iff {α : Type} (key : α → Int) (xs : List α) :
    selectFirstMaxBy key xs = none ↔ xs = [] := by
  induction xs with
  | nil => simp [selectFirstMaxBy]
  | cons x xs ih =>
      cases h : selectFirstMaxBy key xs with
      | none => simp [selectFirstMaxBy, h]
      | some y => simp only [selectFirstMaxBy, h]; split <;> simp

theorem selectFirstMaxBy_mem {α : Type} (key : α → Int) (xs : List α) :
    ∀ y, selectFirstMaxBy key xs = some y → y ∈ xs := by
  induction xs with
  | nil => intro y h; simp [selectFirstMaxBy] at h
  | cons x xs ih =>
      intro y h
      cases h2 : selectFirstMaxBy key xs with
      | none =>
          simp only [selectFirstMaxBy, h2] at h
          cases h
          exact List.mem_cons_self _ _
      | some z =>
          simp only [selectFirstMaxBy, h2] at h
          split at h
          · cases h; exact List.mem_cons_self _ _
          · cases h; exact List.mem_cons_of_mem x (ih _ h2)

theorem selectFirstMaxBy_ge_all {α : Type} (key : α → Int) (xs : List α) :
    ∀ y, selectFirstMaxBy key xs = some y → ∀ x ∈ xs, key x ≤ key y := by
  induction xs with
  | nil => intro y h; simp [selectFirstMaxBy] at h
  | cons x xs ih =>
      intro y h
      cases h2 : selectFirstMaxBy key xs with
      | none =>
          have hnil : xs = [] := (selectFirstMaxBy_eq_none_iff key xs).mp h2
          simp only [selectFirstMaxBy, h2] at h
          cases h
          subst hnil
          intro z hz
          simp at hz
          subst hz
          exact le_refl _
      | some z =>
          simp only [selectFirstMaxBy, h2] at h
          intro w hw
          rcases List.mem_cons.mp hw with rfl | hw2
          · split at h
            · cases h; exact le_refl _
            · cases h
              next hlt => exact le_of_lt (lt_of_not_le hlt)
          · split at h
            · next hle => cases h; exact le_trans (ih _ h2 w hw2) hle
            · cases h; exact ih _ h2 w hw2

theorem selectFirstMaxBy_append_strict {α : Type} (key : α → Int) (xs : List α) (c : α)
    (h : ∀ x ∈ xs, key x < key c) : selectFirstMaxBy key (xs ++ [c]) = some c := by
  induction xs with
  | nil => rfl
  | cons x xs ih =>
      have hx : key x < key c := h x (List.mem_cons_self x xs)
      have ih2 := ih (fun z hz => h z (List.mem_cons_of_mem x hz))
      have hstep : selectFirstMaxBy key ((x :: xs) ++ [c]) =
          match selectFirstMaxBy key (xs ++ [c]) with
          | none => some x
          | some y => if key y ≤ key x then some x else some y := rfl
      rw [hstep, ih2]
      simp only
      rw [if_neg (not_le.mpr hx)]

theorem matrixRowsP_entries (b s m l : FP) (pgs : List FP) (id0 : Nat) :
    ∀ e ∈ matrixRowsP b s m l pgs id0,
      e.result = run_scenario_calculation b s e.p_market_factor e.p_location_factor
        e.p_percent_good := by
  induction pgs generalizing id0 with
  | nil => intro e he; simp [matrixRowsP] at he
  | cons p rest ih =>
      intro e he
      rcases List.mem_cons.mp he with rfl | he2
      · rfl
      · exact ih (id0 + 1) e he2

theorem matrixRowsL_entries (b s m : FP) (ls pgs : List FP) (id0 : Nat) :
    ∀ e ∈ matrixRowsL b s m ls pgs id0,
      e.result = run_scenario_calculation b s e.p_market_factor e.p_location_factor
        e.p_percent_good := by
  induction ls generalizing id0 with
  | nil => intro e he; simp [matrixRowsL] at he
  | cons l rest ih =>
      intro e he
      rcases List.mem_append.mp he with he2 | he2
      · exact matrixRowsP_entries b s m l pgs id0 e he2
      · exact ih (id0 + pgs.length) e he2

theorem matrixRowsM_entries (b s : FP) (ms ls pgs : List FP) (id0 : Nat) :
    ∀ e ∈ matrixRowsM b s ms ls pgs id0,
      e.result = run_scenario_calculation b s e.p_market_factor e.p_location_factor
        e.p_percent_good := by
  induction ms generalizing id0 with
  | nil => intro e he; simp [matrixRowsM] at he
  | cons m rest ih =>
      intro e he
      rcases List.mem_append.mp he with he2 | he2
      · exact matrixRowsL_entries b s m ls pgs id0 e he2
      · exact ih (id0 + ls.length * pgs.length) e he2

theorem foldl_fmin_finite_acc (xs : List FP) (hx : ∀ v ∈ xs, v.isFinite = true) (q0 : ℚ) :
    ∃ qm, xs.foldl FP.fmin (FP.finite q0) = FP.finite qm
      ∧ (qm = q0 ∨ FP.finite qm ∈ xs) ∧ qm ≤ q0 ∧ ∀ q, FP.finite q ∈ xs → qm ≤ q := by
  induction xs generalizing q0 with
  | nil => exact ⟨q0, rfl, Or.inl rfl, le_refl _, by simp⟩
  | cons v vs ih =>
      have hv : v.isFinite = true := hx v (List.mem_cons_self _ _)
      cases v with
      | finite qv =>
          have hstep : (FP.finite qv :: vs).foldl FP.fmin (FP.finite q0)
              = vs.foldl FP.fmin (FP.finite (min q0 qv)) := rfl
          obtain ⟨qm, heq, hmem, hle, hbound⟩ :=
            ih (fun w hw => hx w (List.mem_cons_of_mem _ hw)) (min q0 qv)
          refine ⟨qm, by rw [hstep]; exact heq, ?_, le_trans hle (min_le_left _ _), ?_⟩
          · rcases hmem with h | h
            · rcases le_total q0 qv with hq | hq
              · left; rw [h, min_eq_left hq]
              · right; rw [h, min_eq_right hq]; exact List.mem_cons_self _ _
            · right; exact List.mem_cons_of_mem _ h
          · intro q hq
            rcases List.mem_cons.mp hq with heq2 | hq2
            · have : qv = q := by injection heq2.symm
              rw [← this]
              exact le_trans hle (min_le_right _ _)
            · exact hbound q hq2
      | nan => simp [FP.isFinite] at hv
      | inf => simp [FP.isFinite] at hv
      | neginf => simp [FP.isFinite] at hv

theorem foldl_fmin_inf (xs : List FP) (hx : ∀ v ∈ xs, v.isFinite = true) (hne : xs ≠ []) :
    ∃ qm, xs.foldl FP.fmin FP.inf = FP.finite qm ∧ FP.finite qm ∈ xs
      ∧ ∀ q, FP.finite q ∈ xs → qm ≤ q := by
  cases xs with
  | nil => exact absurd rfl hne
  | cons v vs =>
      have hv : v.isFinite = true := hx v (List.mem_cons_self _ _)
      cases v with
      | finite qv =>
          have hstep : (FP.finite qv :: vs).foldl FP.fmin FP.inf
              = vs.foldl FP.fmin (FP.finite qv) := rfl
          obtain ⟨qm, heq, hmem, hle, hbound⟩ :=
            foldl_fmin_finite_acc vs (fun w hw => hx w (List.mem_cons_of_mem _ hw)) qv
          refine ⟨qm, by rw [hstep]; exact heq, ?_, ?_⟩
          · rcases hmem with h | h
            · rw [h]; exact List.mem_cons_self _ _
            · exact List.mem_cons_of_mem _ h
          · intro q hq
            rcases List.mem_cons.mp hq with heq2 | hq2
            · have : qv = q := by injection heq2.symm
              rw [← this]; exact hle
            · exact hbound q hq2
      | nan => simp [FP.isFinite] at hv
      | inf => simp [FP.isFinite] at hv
      | neginf => simp [FP.isFinite] at hv

theorem foldl_fmax_finite_acc (xs : List FP) (hx : ∀ v ∈ xs, v.isFinite = true) (q0 : ℚ) :
    ∃ qm, xs.foldl FP.fmax (FP.finite q0) = FP.finite qm
      ∧ (qm = q0 ∨ FP.finite qm ∈ xs) ∧ q0 ≤ qm ∧ ∀ q, FP.finite q ∈ xs → q ≤ qm := by
  induction xs generalizing q0 with
  | nil => exact ⟨q0, rfl, Or.inl rfl, le_refl _, by simp⟩
  | cons v vs ih =>
      have hv : v.isFinite = true := hx v (List.mem_cons_self _ _)
      cases v with
      | finite qv =>
          have hstep : (FP.finite qv :: vs).foldl FP.fmax (FP.finite q0)
              = vs.foldl FP.fmax (FP.finite (max q0 qv)) := rfl
          obtain ⟨qm, heq, hmem, hle, hbound⟩ :=
            ih (fun w hw => hx w (List.mem_cons_of_mem _ hw)) (max q0 qv)
          refine ⟨qm, by rw [hstep]; exact heq, ?_, le_trans (le_max_left _ _) hle, ?_⟩
          · rcases hmem with h | h
            · rcases le_total qv q0 with hq | hq
              · left; rw [h, max_eq_left hq]
              · right; rw [h, max_eq_right hq]; exact List.mem_cons_self _ _
            · right; exact List.mem_cons_of_mem _ h
          · intro q hq
            rcases List.mem_cons.mp hq with heq2 | hq2
            · have : qv = q := by injection heq2.symm
              rw [← this]
              exact le_trans (le_max_right _ _) hle
            · exact hbound q hq2
      | nan => simp [FP.isFinite] at hv
      | inf => simp [FP.isFinite] at hv
      | neginf => simp [FP.isFinite] at hv

theorem foldl_fmax_neginf (xs : List FP) (hx : ∀ v ∈ xs, v.isFinite = true) (hne : xs ≠ []) :
    ∃ qm, xs.foldl FP.fmax FP.neginf = FP.finite qm ∧ FP.finite qm ∈ xs
      ∧ ∀ q, FP.finite q ∈ xs → q ≤ qm := by
  cases xs with
  | nil => exact absurd rfl hne
  | cons v vs =>
      have hv : v.isFinite = true := hx v (List.mem_cons_self _ _)
      cases v with
      | finite qv =>
          have hstep : (FP.finite qv :: vs).foldl FP.fmax FP.neginf
              = vs.foldl FP.fmax (FP.finite qv) := rfl
          obtain ⟨qm, heq, hmem, hle, hbound⟩ :=
            foldl_fmax_finite_acc vs (fun w hw => hx w (List.mem_cons_of_mem _ hw)) qv
          refine ⟨qm, by rw [hstep]; exact heq, ?_, ?_⟩
          · rcases hmem with h | h
            · rw [h]; exact List.mem_cons_self _ _
            · exact List.mem_cons_of_mem _ h
          · intro q hq
            rcases List.mem_cons.mp hq with heq2 | hq2
            · have : qv = q := by injection heq2.symm
              rw [← this]; exact hle
            · exact hbound q hq2
      | nan => simp [FP.isFinite] at hv
      | inf => simp [FP.isFinite] at hv
      | neginf => simp [FP.isFinite] at hv

theorem get_cost_factor_congr (db1 db2 : Db) (h : db1.cost_table = db2.cost_table)
    (it q : String) (y : Int) (r : String) :
    get_cost_factor db1 it q y r = get_cost_factor db2 it q y r := by
  unfold get_cost_factor
  rw [h]

theorem get_depreciation_factor_congr (db1 db2 : Db)
    (h : db1.depreciation_schedule = db2.depreciation_schedule) (t : String) (a : Int) :
    get_depreciation_factor db1 t a = get_depreciation_factor db2 t a := by
  unfold get_depreciation_factor
  rw [h]

theorem calculate_valuation_with_db_congr (db1 db2 : Db)
    (hc : db1.cost_table = db2.cost_table)
    (hd : db1.depreciation_schedule = db2.depreciation_schedule)
    (cy pid : Int) (it q : String) (s : FP) (yb : Int) (r : String)
    (mf lf : Option FP) :
    calculate_valuation_with_db db1 cy pid it q s yb r mf lf
      = calculate_valuation_with_db db2 cy pid it q s yb r mf lf := by
  unfold calculate_valuation_with_db
  simp only [get_cost_factor_congr db1 db2 hc, get_depreciation_factor_congr db1 db2 hd]

theorem batch_valuate_calc_spec (db : Db) (cy pid : Int) (cb : Option Int)
    (it qu : String) (sq : FP) (yb : Int) (rg : String) :
    (batch_valuate_calc db cy pid cb it qu sq yb rg).1.propertyId = pid
    ∧ (batch_valuate_calc db cy pid cb it qu sq yb rg).2.property = db.property
    ∧ (batch_valuate_calc db cy pid cb it qu sq yb rg).2.cost_table = db.cost_table
    ∧ (batch_valuate_calc db cy pid cb it qu sq yb rg).2.depreciation_schedule
        = db.depreciation_schedule := by
  unfold batch_valuate_calc
  cases hc : calculate_valuation_with_db db cy pid it qu sq yb rg none none with
  | error e => exact ⟨rfl, rfl, rfl, rfl⟩
  | ok v => exact ⟨rfl, rfl, rfl, rfl⟩

theorem batch_valuate_found_spec (db : Db) (cy pid : Int) (cb : Option Int)
    (prop : PropertyRow) :
    (batch_valuate_found db cy pid cb prop).1.propertyId = pid
    ∧ (batch_valuate_found db cy pid cb prop).2.property = db.property
    ∧ (batch_valuate_found db cy pid cb prop).2.cost_table = db.cost_table
    ∧ (batch_valuate_found db cy pid cb prop).2.depreciation_schedule
        = db.depreciation_schedule := by
  unfold batch_valuate_found
  obtain ⟨pid2, parc, addr, own, it, qu, yb, sq, rg⟩ := prop
  rcases it with _ | itv
  · exact ⟨rfl, rfl, rfl, rfl⟩
  rcases qu with _ | quv
  · exact ⟨rfl, rfl, rfl, rfl⟩
  rcases sq with _ | sqv
  · exact ⟨rfl, rfl, rfl, rfl⟩
  rcases yb with _ | ybv
  · exact ⟨rfl, rfl, rfl, rfl⟩
  rcases rg with _ | rgv
  · exact ⟨rfl, rfl, rfl, rfl⟩
  exact batch_valuate_calc_spec db cy pid cb itv quv sqv ybv rgv

theorem batch_valuate_one_spec (db : Db) (cy pid : Int) (cb : Option Int) :
    (batch_valuate_one db cy pid cb).1.propertyId = pid
    ∧ (batch_valuate_one db cy pid cb).2.property = db.property
    ∧ (batch_valuate_one db cy pid cb).2.cost_table = db.cost_table
    ∧ (batch_valuate_one db cy pid cb).2.depreciation_schedule = db.depreciation_schedule := by
  unfold batch_valuate_one
  cases hfind : db.property.find? (fun p => p.id == pid) with
  | none => exact ⟨rfl, rfl, rfl, rfl⟩
  | some prop => exact batch_valuate_found_spec db cy pid cb prop

theorem batch_valuate_calc_fst_congr (db1 db2 : Db)
    (h2 : db1.cost_table = db2.cost_table)
    (h3 : db1.depreciation_schedule = db2.depreciation_schedule)
    (cy pid : Int) (cb : Option Int) (it qu : String) (sq : FP) (yb : Int) (rg : String) :
    (batch_valuate_calc db1 cy pid cb it qu sq yb rg).1
      = (batch_valuate_calc db2 cy pid cb it qu sq yb rg).1 := by
  unfold batch_valuate_calc
  rw [calculate_valuation_with_db_congr db1 db2 h2 h3 cy pid it qu sq yb rg none none]
  cases hc : calculate_valuation_with_db db2 cy pid it qu sq yb rg none none with
  | error e => rfl
  | ok v => rfl

theorem batch_valuate_found_fst_congr (db1 db2 : Db)
    (h2 : db1.cost_table = db2.cost_table)
    (h3 : db1.depreciation_schedule = db2.depreciation_schedule)
    (cy pid : Int) (cb : Option Int) (prop : PropertyRow) :
    (batch_valuate_found db1 cy pid cb prop).1
      = (batch_valuate_found db2 cy pid cb prop).1 := by
  unfold batch_valuate_found
  obtain ⟨pid2, parc, addr, own, it, qu, yb, sq, rg⟩ := prop
  rcases it with _ | itv
  · rfl
  rcases qu with _ | quv
  · rfl
  rcases sq with _ | sqv
  · rfl
  rcases yb with _ | ybv
  · rfl
  rcases rg with _ | rgv
  · rfl
  exact batch_valuate_calc_fst_congr db1 db2 h2 h3 cy pid cb itv quv sqv ybv rgv

theorem batch_valuate_one_fst_congr (db1 db2 : Db)
    (h1 : db1.property = db2.property) (h2 : db1.cost_table = db2.cost_table)
    (h3 : db1.depreciation_schedule = db2.depreciation_schedule)
    (cy pid : Int) (cb : Option Int) :
    (batch_valuate_one db1 cy pid cb).1 = (batch_valuate_one db2 cy pid cb).1 := by
  unfold batch_valuate_one
  rw [h1]
  cases hfind : db2.property.find? (fun p => p.id == pid) with
  | none => rfl
  | some prop => exact batch_valuate_found_fst_congr db1 db2 h2 h3 cy pid cb prop

theorem batch_valuate_properties_items (db : Db) (cy : Int) (ids : List Int)
    (cb : Option Int) :
    (batch_valuate_properties db cy ids cb).1
      = ids.map (fun pid => (batch_valuate_one db cy pid cb).1) := by
  induction ids generalizing db with
  | nil => rfl
  | cons pid rest ih =>
      have hstep : batch_valuate_properties db cy (pid :: rest) cb
          = ((batch_valuate_one db cy pid cb).1 ::
              (batch_valuate_properties (batch_valuate_one db cy pid cb).2 cy rest cb).1,
             (batch_valuate_properties (batch_valuate_one db cy pid cb).2 cy rest cb).2) := rfl
      have hp := batch_valuate_one_spec db cy pid cb
      have hfun : (fun pid2 => (batch_valuate_one (batch_valuate_one db cy pid cb).2 cy pid2 cb).1)
          = (fun pid2 => (batch_valuate_one db cy pid2 cb).1) :=
        funext fun pid2 =>
          batch_valuate_one_fst_congr (batch_valuate_one db cy pid cb).2 db
            hp.2.1 hp.2.2.1 hp.2.2.2 cy pid2 cb
      rw [hstep]
      simp only [List.map_cons]
      rw [ih (batch_valuate_one db cy pid cb).2, hfun]

theorem filter_and_split {α : Type} (p q : α → Bool) (l : List α) :
    l.filter (fun x => p x && q x) = (l.filter p).filter q := by
  induction l with
  | nil => rfl
  | cons x xs ih => cases hp : p x <;> cases hq : q x <;>
      simp [List.filter_cons, hp, hq, ih]

/-- C2: the depreciation lookup returns the percent-good of the entry
with the smallest tabulated effective age that is at least the
requested age; when every tabulated age is below the requested age it
returns the percent-good of the entry with the largest tabulated age;
it fails with NotFound exactly when the schedule type has zero
entries. (The tie conditions make the statement well-posed when equal
ages occur; the SQL tie-break is arbitrary.) -/
theorem C2_depreciation_policy (db : Db) (t : String) (a : Int) :
    (get_depreciation_factor db t a
        = .error (.NotFound ("Depreciation schedule not found for " ++ t))
      ↔ db.depreciation_schedule.filter (fun e => e.schedule_type == t) = [])
    ∧ (∀ e ∈ db.depreciation_schedule.filter (fun e2 => e2.schedule_type == t),
        a ≤ e.effective_age →
        (∀ e2 ∈ db.depreciation_schedule.filter (fun e3 => e3.schedule_type == t),
          a ≤ e2.effective_age → e.effective_age ≤ e2.effective_age) →
        (∀ e2 ∈ db.depreciation_schedule.filter (fun e3 => e3.schedule_type == t),
          a ≤ e2.effective_age → e2.effective_age ≤ e.effective_age →
          e2.percent_good = e.percent_good) →
        get_depreciation_factor db t a = .ok e.percent_good)
    ∧ (∀ e ∈ db.depreciation_schedule.filter (fun e2 => e2.schedule_type == t),
        (∀ e2 ∈ db.depreciation_schedule.filter (fun e3 => e3.schedule_type == t),
          e2.effective_age < a) →
        (∀ e2 ∈ db.depreciation_schedule.filter (fun e3 => e3.schedule_type == t),
          e2.effective_age ≤ e.effective_age) →
        (∀ e2 ∈ db.depreciation_schedule.filter (fun e3 => e3.schedule_type == t),
          e.effective_age ≤ e2.effective_age → e2.percent_good = e.percent_good) →
        get_depreciation_factor db t a = .ok e.percent_good) := by
  have hsplit : db.depreciation_schedule.filter
        (fun e => e.schedule_type == t && decide (a ≤ e.effective_age))
      = (db.depreciation_schedule.filter (fun e => e.schedule_type == t)).filter
          (fun e => decide (a ≤ e.effective_age)) :=
    filter_and_split _ _ _
  refine ⟨⟨?_, ?_⟩, ?_, ?_⟩
  · -- error implies empty schedule
    intro h
    cases hS : selectFirstMinBy (fun e => e.effective_age)
        (db.depreciation_schedule.filter
          (fun e => e.schedule_type == t && decide (a ≤ e.effective_age))) with
    | some dep =>
        simp only [get_depreciation_factor, hS] at h
        exact Except.noConfusion h
    | none =>
        cases hF : selectFirstMaxBy (fun e => e.effective_age)
            (db.depreciation_schedule.filter (fun e => e.schedule_type == t)) with
        | some fb =>
            simp only [get_depreciation_factor, hS, hF] at h
            exact Except.noConfusion h
        | none => exact (selectFirstMaxBy_eq_none_iff _ _).mp hF
  · -- empty schedule implies the NotFound error
    intro h
    have hgeq : db.depreciation_schedule.filter
        (fun e => e.schedule_type == t && decide (a ≤ e.effective_age)) = [] := by
      rw [hsplit, h]; rfl
    have hS : selectFirstMinBy (fun e : DepreciationSchedule => e.effective_age)
        (db.depreciation_schedule.filter
          (fun e => e.schedule_type == t && decide (a ≤ e.effective_age))) = none := by
      rw [hgeq]; rfl
    have hF : selectFirstMaxBy (fun e : DepreciationSchedule => e.effective_age)
        (db.depreciation_schedule.filter (fun e => e.schedule_type == t)) = none := by
      rw [h]; rfl
    simp only [get_depreciation_factor, hS, hF]
  · -- nearest-or-next-higher policy
    intro e he ha hmin htie
    have hegeq : e ∈ db.depreciation_schedule.filter
        (fun e2 => e2.schedule_type == t && decide (a ≤ e2.effective_age)) := by
      rw [hsplit]
      exact List.mem_filter.mpr ⟨he, by simpa using ha⟩
    cases hS : selectFirstMinBy (fun e2 => e2.effective_age)
        (db.depreciation_schedule.filter
          (fun e2 => e2.schedule_type == t && decide (a ≤ e2.effective_age))) with
    | none =>
        have hnil : db.depreciation_schedule.filter
            (fun e2 => e2.schedule_type == t && decide (a ≤ e2.effective_age)) = [] :=
          (selectFirstMinBy_eq_none_iff _ _).mp hS
        rw [hnil] at hegeq
        exact absurd hegeq (List.not_mem_nil e)
    | some dep =>
        have hdep_mem := selectFirstMinBy_mem _ _ dep hS
        have hdep_min := selectFirstMinBy_le_all _ _ dep hS
        have hdep_le : dep.effective_age ≤ e.effective_age := hdep_min e hegeq
        have hdep_split : dep ∈ (db.depreciation_schedule.filter
            (fun e2 => e2.schedule_type == t)).filter
              (fun e2 => decide (a ≤ e2.effective_age)) := by
          rw [← hsplit]; exact hdep_mem
        have hdep_entries := (List.mem_filter.mp hdep_split).1
        have hdep_age : a ≤ dep.effective_age := by
          have := (List.mem_filter.mp hdep_split).2
          simpa using this
        simp only [get_depreciation_factor, hS]
        rw [htie dep hdep_entries hdep_age hdep_le]
  · -- fallback to the largest tabulated age
    intro e he hall hmax htie
    have hgeq : db.depreciation_schedule.filter
        (fun e2 => e2.schedule_type == t && decide (a ≤ e2.effective_age)) = [] := by
      rw [hsplit]
      apply List.filter_eq_nil_iff.mpr
      intro x hx
      simpa using not_le.mpr (hall x hx)
    have hS : selectFirstMinBy (fun e2 : DepreciationSchedule => e2.effective_age)
        (db.depreciation_schedule.filter
          (fun e2 => e2.schedule_type == t && decide (a ≤ e2.effective_age))) = none := by
      rw [hgeq]; rfl
    cases hF : selectFirstMaxBy (fun e2 => e2.effective_age)
        (db.depreciation_schedule.filter (fun e2 => e2.schedule_type == t)) with
    | none =>
        have hnil : db.depreciation_schedule.filter (fun e2 => e2.schedule_type == t) = [] :=
          (selectFirstMaxBy_eq_none_iff _ _).mp hF
        rw [hnil] at he
        exact absurd he (List.not_mem_nil e)
    | some fb =>
        have hfb_mem := selectFirstMaxBy_mem _ _ fb hF
        have hfb_ge := selectFirstMaxBy_ge_all _ _ fb hF
        have h1 : e.effective_age ≤ fb.effective_age := hfb_ge e he
        simp only [get_depreciation_factor, hS, hF]
        rw [htie fb hfb_mem h1]

/-- Witness for C2 at the spec example ages 5, 10, 20: age 7 resolves
to the age-10 entry, 25 falls back to the age-20 entry, 0 resolves to
the age-5 entry, and an unknown schedule type is NotFound. -/
theorem C2_depreciation_policy_witness :
    get_depreciation_factor dbC2 "res" 7 = .ok (FP.finite 80)
    ∧ get_depreciation_factor dbC2 "res" 25 = .ok (FP.finite 40)
    ∧ get_depreciation_factor dbC2 "res" 0 = .ok (FP.finite 95)
    ∧ get_depreciation_factor dbC2 "com" 5
        = .error (.NotFound "Depreciation schedule not found for com") := by
  refine ⟨?_, ?_, ?_, ?_⟩
  · exact (C2_depreciation_policy dbC2 "res" 7).2.1 ⟨2, "res", 10, FP.finite 80⟩
      (by decide) (by decide) (by decide) (by decide)
  · exact (C2_depreciation_policy dbC2 "res" 25).2.2 ⟨3, "res", 20, FP.finite 40⟩
      (by decide) (by decide) (by decide) (by decide)
  · exact (C2_depreciation_policy dbC2 "res" 0).2.1 ⟨1, "res", 5, FP.finite 95⟩
      (by decide) (by decide) (by decide) (by decide)
  · exact (C2_depreciation_policy dbC2 "com" 5).1.mpr (by decide)

/-- C1: every path computes
final = unit cost × area × market × location × percent-good as the
same left-associated product, RCN as its first four factors, and
depreciation applied as RCN − final: the single scenario directly,
every matrix-scenario entry through the same single-scenario function,
and the db-backed valuation on the resolved cost and percent-good. -/
theorem C1_formula_everywhere (u a m l p b s : FP) (ms ls ps : List FP) (db : Db)
    (cy pid : Int) (it q : String) (sq : FP) (yb : Int) (rg : String)
    (mf lf : Option FP) (v : ValuationCalc)
    (hv : calculate_valuation_with_db db cy pid it q sq yb rg mf lf = .ok v) :
    (run_scenario_calculation u a m l p).rcn = ((u.mul a).mul m).mul l
    ∧ (run_scenario_calculation u a m l p).final_value = (((u.mul a).mul m).mul l).mul p
    ∧ (run_scenario_calculation u a m l p).depreciation_applied
        = (run_scenario_calculation u a m l p).rcn.sub
            (run_scenario_calculation u a m l p).final_value
    ∧ (∀ e ∈ (run_scenario_matrix b s ms ls ps).scenarios,
        e.result = run_scenario_calculation b s e.p_market_factor e.p_location_factor
          e.p_percent_good)
    ∧ v.rcn = calculate_rcn v.base_cost_per_sqft sq v.market_factor v.location_factor
    ∧ v.final_value
        = (((v.base_cost_per_sqft.mul sq).mul v.market_factor).mul v.location_factor).mul
            v.percent_good
    ∧ v.final_value = apply_depreciation v.rcn v.percent_good := by
  refine ⟨rfl, rfl, rfl, matrixRowsM_entries b s ms ls ps 1, ?_⟩
  cases hcf : get_cost_factor db it q cy rg with
  | error e0 =>
      simp only [calculate_valuation_with_db, hcf] at hv
      exact Except.noConfusion hv
  | ok ct =>
      cases hdf : get_depreciation_factor db it (max (cy - yb) 0) with
      | error e0 =>
          simp only [calculate_valuation_with_db, hcf, hdf] at hv
          exact Except.noConfusion hv
      | ok pg =>
          simp only [calculate_valuation_with_db, hcf, hdf, Except.ok.injEq] at hv
          subst hv
          exact ⟨rfl, rfl, rfl⟩

/-- Witness for C1: a concrete db-backed valuation together with the
single-scenario product identity at concrete factors. -/
theorem C1_formula_everywhere_witness :
    calculate_valuation_with_db dbC1 2024 1 "res" "good" (FP.finite 100) 2019 "north"
      none none = .ok vC1
    ∧ (run_scenario_calculation (FP.finite 3) (FP.finite 4) (FP.finite 5) (FP.finite 6)
        (FP.finite 7)).final_value
      = ((((FP.finite 3).mul (FP.finite 4)).mul (FP.finite 5)).mul (FP.finite 6)).mul
          (FP.finite 7)
    ∧ vC1.rcn = calculate_rcn vC1.base_cost_per_sqft (FP.finite 100) vC1.market_factor
        vC1.location_factor := by
  have h := C1_formula_everywhere (FP.finite 3) (FP.finite 4) (FP.finite 5) (FP.finite 6)
    (FP.finite 7) (FP.finite 1) (FP.finite 1) [] [] [] dbC1 2024 1 "res" "good"
    (FP.finite 100) 2019 "north" none none vC1 rfl
  exact ⟨rfl, h.2.1, h.2.2.2.2.1⟩

/-- C10: with area 0 and all other parameters finite, the single
scenario computes RCN 0 and final value 0, the cost-per-area field is
the unguarded quotient 0 / 0 = NaN (non-finite), and the creation
endpoint persists the scenario without any validation of the area. -/
theorem C10_zero_area_unguarded (name : String) (descr : Option String) (u m l p : ℚ)
    (db : Db) (uid : Int) :
    (run_scenario_calculation (FP.finite u) (FP.finite 0) (FP.finite m) (FP.finite l)
      (FP.finite p)).rcn = FP.finite 0
    ∧ (run_scenario_calculation (FP.finite u) (FP.finite 0) (FP.finite m) (FP.finite l)
        (FP.finite p)).final_value = FP.finite 0
    ∧ (run_scenario_calculation (FP.finite u) (FP.finite 0) (FP.finite m) (FP.finite l)
        (FP.finite p)).cost_per_sqft = FP.nan
    ∧ ((run_scenario_calculation (FP.finite u) (FP.finite 0) (FP.finite m) (FP.finite l)
        (FP.finite p)).cost_per_sqft).isFinite = false
    ∧ create_scenario db uid
        ⟨name, descr, FP.finite u, FP.finite 0, FP.finite m, FP.finite l, FP.finite p⟩
      = (.ok (⟨db.next_id, name, descr,
            .single (FP.finite u) (FP.finite 0) (FP.finite m) (FP.finite l) (FP.finite p),
            some (.single (run_scenario_calculation (FP.finite u) (FP.finite 0)
              (FP.finite m) (FP.finite l) (FP.finite p))),
            some uid⟩,
          run_scenario_calculation (FP.finite u) (FP.finite 0) (FP.finite m) (FP.finite l)
            (FP.finite p)),
         { db with
           scenario := db.scenario ++ [⟨db.next_id, name, descr,
             .single (FP.finite u) (FP.finite 0) (FP.finite m) (FP.finite l) (FP.finite p),
             some (.single (run_scenario_calculation (FP.finite u) (FP.finite 0)
               (FP.finite m) (FP.finite l) (FP.finite p))),
             some uid⟩]
           next_id := db.next_id + 1 }) := by
  have hz : (u * 0 * m * l : ℚ) = 0 := by ring
  have hz2 : (u * 0 * m * l * p : ℚ) = 0 := by ring
  refine ⟨?_, ?_, ?_, ?_, rfl⟩
  · show FP.finite (u * 0 * m * l) = FP.finite 0
    rw [hz]
  · show FP.finite (u * 0 * m * l * p) = FP.finite 0
    rw [hz2]
  · show FP.div (FP.finite (u * 0 * m * l * p)) (FP.finite 0) = FP.nan
    rw [hz2]
    simp [FP.div]
  · show (FP.div (FP.finite (u * 0 * m * l * p)) (FP.finite 0)).isFinite = false
    rw [hz2]
    simp [FP.div, FP.isFinite]

/-- C8: with a valid credential whose role parses, an insufficient
role fails each capability extractor with Authorization (never
Authentication); an Analyst passes the Analyst-or-above gate of
valuation creation but `register` (Admin-only) rejects with
Authorization before touching the store. -/
theorem C8_authorization_not_authentication (u2 : AuthenticatedUser) (r : Role)
    (hr : Role.from_str u2.role = .ok r) :
    (r ≠ .Admin → adminOnly (.ok u2) = .error (.Authorization "Admin access required"))
    ∧ (¬ (r = .Admin ∨ r = .Assessor) →
        assessorOrAbove (.ok u2)
          = .error (.Authorization "Assessor access or above required"))
    ∧ (¬ (r = .Admin ∨ r = .Assessor ∨ r = .Analyst) →
        analystOrAbove (.ok u2)
          = .error (.Authorization "Analyst access or above required"))
    ∧ (r = .Analyst → analystOrAbove (.ok u2) = .ok ())
    ∧ (∀ db req, r ≠ .Admin →
        register db (.ok u2) req = (.error (.Authorization "Admin access required"), db))
    ∧ (∀ db cy req, r = .Analyst →
        create_valuation db cy (.ok u2) u2 req = create_valuation_body db cy u2 req) := by
  have hAdmin : r ≠ .Admin →
      adminOnly (.ok u2) = .error (.Authorization "Admin access required") := by
    intro hne
    simp only [adminOnly, hr]
    cases r with
    | Admin => exact absurd rfl hne
    | Assessor => rfl
    | Analyst => rfl
    | Viewer => rfl
  have hAnalyst : r = .Analyst → analystOrAbove (.ok u2) = .ok () := by
    intro he
    subst he
    simp only [analystOrAbove, hr]
  refine ⟨hAdmin, ?_, ?_, hAnalyst, ?_, ?_⟩
  · intro hne
    simp only [assessorOrAbove, hr]
    cases r with
    | Admin => exact absurd (Or.inl rfl) hne
    | Assessor => exact absurd (Or.inr rfl) hne
    | Analyst => rfl
    | Viewer => rfl
  · intro hne
    simp only [analystOrAbove, hr]
    cases r with
    | Admin => exact absurd (Or.inl rfl) hne
    | Assessor => exact absurd (Or.inr (Or.inl rfl)) hne
    | Analyst => exact absurd (Or.inr (Or.inr rfl)) hne
    | Viewer => rfl
  · intro db req hne
    simp only [register, hAdmin hne]
  · intro db cy req he
    simp only [create_valuation, hAnalyst he]

/-- Witness for C8: an authenticated analyst passes the
Analyst-or-above gate but registration is rejected with Authorization,
not Authentication. -/
theorem C8_authorization_not_authentication_witness :
    adminOnly (.ok uAnalyst) = .error (.Authorization "Admin access required")
    ∧ analystOrAbove (.ok uAnalyst) = .ok ()
    ∧ register dbC9 (.ok uAnalyst) reqUser
        = (.error (.Authorization "Admin access required"), dbC9)
    ∧ create_valuation dbC7 2024 (.ok uAnalyst) uAnalyst ⟨7, "res", "good", FP.finite 100, 2019, "north"⟩
        = create_valuation_body dbC7 2024 uAnalyst ⟨7, "res", "good", FP.finite 100, 2019, "north"⟩ := by
  have h := C8_authorization_not_authentication uAnalyst .Analyst rfl
  exact ⟨h.1 (by decide), h.2.2.2.1 rfl,
    h.2.2.2.2.1 dbC9 reqUser (by decide),
    h.2.2.2.2.2 dbC7 2024 ⟨7, "res", "good", FP.finite 100, 2019, "north"⟩ rfl⟩

/-- Counterexample to C9: an authenticated Admin who is not the
creator is denied reading a BatchJob status (with NotFound), because
the query filters on `created_by = caller` with no Admin bypass. -/
theorem C9_admin_denied_batch_read :
    Role.from_str uAdminOther.role = .ok .Admin
    ∧ get_batch_status dbC9 1 uAdminOther
        = .error (.NotFound "Batch upload 1 not found") := by
  exact ⟨rfl, rfl⟩

/-- Amended C9: after authentication, deleting a Scenario succeeds
exactly for the creator or the admin role (denied with Authorization
otherwise); reading a BatchJob status succeeds exactly for the
creator — Admin gets no bypass and the denial surfaces as NotFound;
an authentication failure propagates before either check. -/
theorem C9_ownership_after_auth (db : Db) (id : Int) (u2 : AuthenticatedUser)
    (uid : Int) (role : String) (s : ScenarioRow) (hs : get_scenario db id = .ok s) :
    (∀ b, get_batch_status db id u2 = .ok b →
        b ∈ db.batch_upload ∧ b.id = id ∧ b.created_by = some u2.user_id)
    ∧ ((∀ b ∈ db.batch_upload, ¬ (b.id = id ∧ b.created_by = some u2.user_id)) →
        get_batch_status db id u2
          = .error (.NotFound ("Batch upload " ++ toString id ++ " not found")))
    ∧ (s.created_by = some uid ∨ role = "admin" →
        (delete_scenario db id uid role).1 = .ok ())
    ∧ (s.created_by ≠ some uid ∧ role ≠ "admin" →
        delete_scenario db id uid role
          = (.error (.Authorization "You can only delete your own scenarios"), db))
    ∧ (∀ e, get_batch_status_endpoint db id (.error e) = .error e)
    ∧ (∀ e, delete_scenario_endpoint db id (.error e) = (.error e, db)) := by
  refine ⟨?_, ?_, ?_, ?_, fun e => rfl, fun e => rfl⟩
  · intro b hb
    cases hfind : db.batch_upload.find?
        (fun b2 => b2.id == id && b2.created_by == some u2.user_id) with
    | none =>
        simp only [get_batch_status, hfind] at hb
        exact Except.noConfusion hb
    | some b2 =>
        simp only [get_batch_status, hfind, Except.ok.injEq] at hb
        subst hb
        have hmem := List.mem_of_find?_eq_some hfind
        have hpred := List.find?_some hfind
        simp only [Bool.and_eq_true, beq_iff_eq] at hpred
        exact ⟨hmem, hpred.1, hpred.2⟩
  · intro hnone
    have hfind : db.batch_upload.find?
        (fun b2 => b2.id == id && b2.created_by == some u2.user_id) = none := by
      apply List.find?_eq_none.mpr
      intro b hb
      have := hnone b hb
      simpa [Bool.and_eq_true, beq_iff_eq] using this
    simp only [get_batch_status, hfind]
  · intro hor
    have hcond : (s.created_by != some uid && role != "admin") = false := by
      rcases hor with h | h <;> simp [h, bne]
    simp only [delete_scenario, hs, hcond]
    rfl
  · intro hand
    have hcond : (s.created_by != some uid && role != "admin") = true := by
      simp [bne, hand.1, hand.2]
    simp only [delete_scenario, hs, hcond]
    simp

/-- Witness for the amended C9: the creator deletes their scenario, a
non-creator non-admin is denied with Authorization, the creator reads
the batch status, and an authentication failure propagates. -/
theorem C9_ownership_after_auth_witness :
    (delete_scenario dbC9 1 1 "analyst").1 = .ok ()
    ∧ delete_scenario dbC9 1 2 "analyst"
        = (.error (.Authorization "You can only delete your own scenarios"), dbC9)
    ∧ get_batch_status dbC9 1 ⟨1, "creator", "analyst"⟩
        = .ok ⟨1, "f.csv", "csv", "completed", 10, 10, 0, none, true, some 1⟩
    ∧ get_batch_status_endpoint dbC9 1 (.error (.Authentication "Invalid token: bad"))
        = .error (.Authentication "Invalid token: bad") := by
  have hcreator := C9_ownership_after_auth dbC9 1 ⟨1, "creator", "analyst"⟩ 1 "analyst"
    ⟨1, "s1", none,
      .single (FP.finite 1) (FP.finite 1) (FP.finite 1) (FP.finite 1) (FP.finite 1),
      none, some 1⟩ rfl
  have hother := C9_ownership_after_auth dbC9 1 ⟨1, "creator", "analyst"⟩ 2 "analyst"
    ⟨1, "s1", none,
      .single (FP.finite 1) (FP.finite 1) (FP.finite 1) (FP.finite 1) (FP.finite 1),
      none, some 1⟩ rfl
  refine ⟨hcreator.2.2.1 (Or.inl rfl), hother.2.2.2.1 ⟨by decide, by decide⟩, rfl,
    hcreator.2.2.2.2.1 (.Authentication "Invalid token: bad")⟩

theorem calculate_value_range_nonempty (scenarios : List MatrixEntry)
    (hne : scenarios ≠ []) :
    calculate_value_range scenarios =
      { vmin := (scenarios.map (fun s => s.result.final_value)).foldl FP.fmin FP.inf
        vmax := (scenarios.map (fun s => s.result.final_value)).foldl FP.fmax FP.neginf
        avg := ((scenarios.map (fun s => s.result.final_value)).foldl FP.add
            (FP.finite 0)).div
          (FP.ofNat (scenarios.map (fun s => s.result.final_value)).length)
        variance := some
          (((scenarios.map (fun s => s.result.final_value)).foldl FP.fmax FP.neginf).sub
            ((scenarios.map (fun s => s.result.final_value)).foldl FP.fmin FP.inf)) } := by
  unfold calculate_value_range
  rw [if_neg (by simpa [List.isEmpty_iff] using hne)]

/-- C3: a matrix request whose cartesian-product size exceeds 100 is
rejected with Validation and the store is untouched; otherwise the
result holds exactly one entry per (market, location, percent-good)
combination, the persisted row carries the payload, and the summary
aggregates are the fold values with variance = max − min, which with
all-finite final values are genuine extrema of the final values. -/
theorem C3_matrix_limit (db : Db) (uid : Int) (req : MatrixScenarioRequest) :
    (req.market_factors.length * req.location_factors.length * req.percent_goods.length
        > 100 →
      create_matrix_scenario db uid req
        = (.error (.Validation "Matrix scenario cannot exceed 100 combinations"), db))
    ∧ (¬ req.market_factors.length * req.location_factors.length * req.percent_goods.length
        > 100 →
      ∀ row result, (create_matrix_scenario db uid req).1 = .ok (row, result) →
        result.scenarios.length
          = req.market_factors.length * req.location_factors.length
              * req.percent_goods.length
        ∧ result.total_scenarios = result.scenarios.length
        ∧ result.value_range = calculate_value_range result.scenarios
        ∧ (result.scenarios ≠ [] →
            result.value_range.variance
              = some (result.value_range.vmax.sub result.value_range.vmin))
        ∧ ((∀ v2 ∈ result.scenarios.map (fun e => e.result.final_value),
              v2.isFinite = true) →
            result.scenarios ≠ [] →
            ∃ qmin qmax, result.value_range.vmin = FP.finite qmin
              ∧ result.value_range.vmax = FP.finite qmax
              ∧ FP.finite qmin ∈ result.scenarios.map (fun e => e.result.final_value)
              ∧ FP.finite qmax ∈ result.scenarios.map (fun e => e.result.final_value)
              ∧ (∀ q, FP.finite q ∈ result.scenarios.map (fun e => e.result.final_value) →
                  qmin ≤ q ∧ q ≤ qmax))
        ∧ row.results = some (.matrix result)) := by
  constructor
  · intro h
    unfold create_matrix_scenario
    rw [if_pos h]
  · intro hn row result hok
    unfold create_matrix_scenario at hok
    rw [if_neg hn] at hok
    simp only [Except.ok.injEq, Prod.mk.injEq] at hok
    obtain ⟨hrow, hres⟩ := hok
    subst hrow
    subst hres
    refine ⟨?_, rfl, rfl, ?_, ?_, rfl⟩
    · show (matrixRowsM req.base_cost req.sqft req.market_factors req.location_factors
        req.percent_goods 1).length = _
      rw [matrixRowsM_length]
      ring
    · intro hne
      have hne2 : matrixRowsM req.base_cost req.sqft req.market_factors
          req.location_factors req.percent_goods 1 ≠ [] := hne
      show (calculate_value_range (matrixRowsM req.base_cost req.sqft req.market_factors
          req.location_factors req.percent_goods 1)).variance
        = some ((calculate_value_range (matrixRowsM req.base_cost req.sqft
              req.market_factors req.location_factors req.percent_goods 1)).vmax.sub
            (calculate_value_range (matrixRowsM req.base_cost req.sqft req.market_factors
              req.location_factors req.percent_goods 1)).vmin)
      rw [calculate_value_range_nonempty _ hne2]
    · intro hfin hne
      have hne2 : matrixRowsM req.base_cost req.sqft req.market_factors
          req.location_factors req.percent_goods 1 ≠ [] := hne
      have hne3 : (matrixRowsM req.base_cost req.sqft req.market_factors
          req.location_factors req.percent_goods 1).map (fun e => e.result.final_value)
            ≠ [] := by
        simpa using hne2
      obtain ⟨qmin, hmineq, hminmem, hminle⟩ := foldl_fmin_inf _ hfin hne3
      obtain ⟨qmax, hmaxeq, hmaxmem, hmaxge⟩ := foldl_fmax_neginf _ hfin hne3
      refine ⟨qmin, qmax, ?_, ?_, hminmem, hmaxmem, fun q hq => ⟨hminle q hq, hmaxge q hq⟩⟩
      · show (calculate_value_range (matrixRowsM req.base_cost req.sqft req.market_factors
            req.location_factors req.percent_goods 1)).vmin = _
        rw [calculate_value_range_nonempty _ hne2]
        exact hmineq
      · show (calculate_value_range (matrixRowsM req.base_cost req.sqft req.market_factors
            req.location_factors req.percent_goods 1)).vmax = _
        rw [calculate_value_range_nonempty _ hne2]
        exact hmaxeq

/-- Witness for C3: 5 × 5 × 5 = 125 is rejected with Validation while
4 × 5 × 4 = 80 succeeds with exactly 80 scenario entries. -/
theorem C3_matrix_limit_witness :
    create_matrix_scenario emptyDb 1 req555
      = (.error (.Validation "Matrix scenario cannot exceed 100 combinations"), emptyDb)
    ∧ Except.map (fun pr => pr.2.scenarios.length)
        (create_matrix_scenario emptyDb 1 req454).1 = .ok 80 := by
  refine ⟨(C3_matrix_limit emptyDb 1 req555).1 (by decide), ?_⟩
  cases h : (create_matrix_scenario emptyDb 1 req454).1 with
  | error e =>
      unfold create_matrix_scenario at h
      rw [if_neg (by decide)] at h
      exact Except.noConfusion h
  | ok pr =>
      have hspec := (C3_matrix_limit emptyDb 1 req454).2 (by decide) pr.1 pr.2
        (by rw [h])
      show Except.ok pr.2.scenarios.length = Except.ok 80
      rw [hspec.1]
      rfl

theorem foldl_max_ge_acc (l : List Int) (acc : Int) : acc ≤ l.foldl max acc := by
  induction l generalizing acc with
  | nil => exact le_refl _
  | cons x xs ih => exact le_trans (le_max_left acc x) (ih (max acc x))

theorem foldl_max_ge_mem (l : List Int) (x : Int) (hx : x ∈ l) (acc : Int) :
    x ≤ l.foldl max acc := by
  induction l generalizing acc with
  | nil => simp at hx
  | cons y ys ih =>
      rcases List.mem_cons.mp hx with rfl | h2
      · exact le_trans (le_max_right acc x) (foldl_max_ge_acc ys (max acc x))
      · exact ih h2 (max acc y)

/-- C6: ingesting a well-formed cost-table row always succeeds, inserts
one new row for its (type, quality, year, region) tuple whose
spec-modelled version is strictly above every existing version for the
tuple, and the cost-factor lookup then selects exactly that newest
row; the lookup fails with NotFound precisely when the tuple has no
rows at all. -/
theorem C6_version_bump (db : Db) (today : Date) (data : List (String × String))
    (f : CostFields) (hf : cost_row_fields today data = .ok f) :
    (process_cost_table_record db today data).1 = .ok ()
    ∧ (∃ c, ((process_cost_table_record db today data).2.cost_table.filter fun c2 =>
          c2.imp_type == f.imp_type && c2.quality == f.quality && c2.year == f.year
            && c2.region == f.region)
        = (db.cost_table.filter fun c2 =>
            c2.imp_type == f.imp_type && c2.quality == f.quality && c2.year == f.year
              && c2.region == f.region) ++ [c]
      ∧ (∀ c2 ∈ db.cost_table.filter fun c3 =>
          c3.imp_type == f.imp_type && c3.quality == f.quality && c3.year == f.year
            && c3.region == f.region, c2.version < c.version)
      ∧ c.cost_per_sqft = f.cost_per_sqft
      ∧ get_cost_factor (process_cost_table_record db today data).2 f.imp_type f.quality
          f.year f.region = .ok c)
    ∧ (∀ it q y r, get_cost_factor db it q y r
          = .error (.NotFound ("Cost factor not found for " ++ it ++ "/" ++ q ++ "/"
              ++ toString y ++ "/" ++ r))
        ↔ (db.cost_table.filter fun c2 =>
            c2.imp_type == it && c2.quality == q && c2.year == y && c2.region == r) = []) := by
  have hdb2 : (process_cost_table_record db today data).2
      = insert_cost_table db f.imp_type f.quality f.year f.region f.cost_per_sqft
          f.source f.notes f.effective_date := by
    simp only [process_cost_table_record, hf]
  have hdb1 : (process_cost_table_record db today data).1 = .ok () := by
    simp only [process_cost_table_record, hf]
  set newRow : CostTable :=
    { id := db.next_id, imp_type := f.imp_type, quality := f.quality, year := f.year
      region := f.region, cost_per_sqft := f.cost_per_sqft, source := f.source
      notes := f.notes, version := nextVersion db f.imp_type f.quality f.year f.region
      effective_date := f.effective_date } with hnew
  have hkeynew : (newRow.imp_type == f.imp_type && newRow.quality == f.quality
      && newRow.year == f.year && newRow.region == f.region) = true := by
    simp [hnew]
  have hfilter : ((process_cost_table_record db today data).2.cost_table.filter fun c2 =>
        c2.imp_type == f.imp_type && c2.quality == f.quality && c2.year == f.year
          && c2.region == f.region)
      = (db.cost_table.filter fun c2 =>
          c2.imp_type == f.imp_type && c2.quality == f.quality && c2.year == f.year
            && c2.region == f.region) ++ [newRow] := by
    rw [hdb2]
    show ((db.cost_table ++ [newRow]).filter fun c2 =>
        c2.imp_type == f.imp_type && c2.quality == f.quality && c2.year == f.year
          && c2.region == f.region) = _
    rw [List.filter_append]
    congr 1
    simp [hkeynew]
  have hmono : ∀ c2 ∈ db.cost_table.filter fun c3 =>
      c3.imp_type == f.imp_type && c3.quality == f.quality && c3.year == f.year
        && c3.region == f.region, c2.version < newRow.version := by
    intro c2 hc2
    have hver : c2.version ∈ (db.cost_table.filter fun c3 =>
        c3.imp_type == f.imp_type && c3.quality == f.quality && c3.year == f.year
          && c3.region == f.region).map fun c3 => c3.version :=
      List.mem_map_of_mem _ hc2
    have hle := foldl_max_ge_mem _ _ hver 0
    show c2.version < 1 + List.foldl max 0 ((db.cost_table.filter fun c3 =>
        c3.imp_type == f.imp_type && c3.quality == f.quality && c3.year == f.year
          && c3.region == f.region).map fun c3 => c3.version)
    omega
  refine ⟨hdb1, ⟨newRow, hfilter, hmono, rfl, ?_⟩, ?_⟩
  · -- the lookup returns the newly inserted row
    have hsel : selectFirstMaxBy (fun c => c.version)
        ((process_cost_table_record db today data).2.cost_table.filter fun c2 =>
          c2.imp_type == f.imp_type && c2.quality == f.quality && c2.year == f.year
            && c2.region == f.region) = some newRow := by
      rw [hfilter]
      exact selectFirstMaxBy_append_strict _ _ _ hmono
    simp only [get_cost_factor, hsel]
  · intro it q y r
    constructor
    · intro h
      cases hsel : selectFirstMaxBy (fun c => c.version)
          (db.cost_table.filter fun c2 =>
            c2.imp_type == it && c2.quality == q && c2.year == y && c2.region == r) with
      | some c =>
          simp only [get_cost_factor, hsel] at h
          exact Except.noConfusion h
      | none => exact (selectFirstMaxBy_eq_none_iff _ _).mp hsel
    · intro h
      have hsel : selectFirstMaxBy (fun c : CostTable => c.version)
          (db.cost_table.filter fun c2 =>
            c2.imp_type == it && c2.quality == q && c2.year == y && c2.region == r)
          = none := by
        rw [h]; rfl
      simp only [get_cost_factor, hsel]

/-- Witness for C6: ingesting a second row for (res, good, 2024,
north) yields versions [1, 2] and the lookup selects version 2. -/
theorem C6_version_bump_witness :
    ((process_cost_table_record dbC6 dateT dataC6).2.cost_table.map fun c => c.version)
      = [1, 2]
    ∧ (Except.map (fun c => c.version)
        (get_cost_factor (process_cost_table_record dbC6 dateT dataC6).2 "res" "good"
          2024 "north")) = .ok 2
    ∧ (process_cost_table_record dbC6 dateT dataC6).1 = .ok () := by
  have h := C6_version_bump dbC6 dateT dataC6 fC6 rfl
  exact ⟨by decide, rfl, h.1⟩

/-- C7: up to 1000 ids, the batch endpoint returns exactly one result
entry per requested id, in input order; each entry depends only on the
requested id and the initial store, so one item failing never aborts
or alters the others; the summary counts successes and errors over the
result list. -/
theorem C7_batch_items_independent (db : Db) (cy : Int) (uid : Option Int)
    (ids : List Int) (hlen : ids.length ≤ 1000) :
    (batch_valuation db cy uid ids).1
      = .ok { results := ids.map fun pid => (batch_valuate_one db cy pid uid).1
              total_requested := ids.length
              successful := ((ids.map fun pid => (batch_valuate_one db cy pid uid).1).filter
                fun r2 => r2.isSuccess).length
              errors := ids.length
                - ((ids.map fun pid => (batch_valuate_one db cy pid uid).1).filter
                    fun r2 => r2.isSuccess).length }
    ∧ ((ids.map fun pid => (batch_valuate_one db cy pid uid).1).map BatchItem.propertyId)
        = ids := by
  constructor
  · unfold batch_valuation
    rw [if_neg (by omega)]
    simp only [batch_valuate_properties_items, List.length_map]
  · rw [List.map_map]
    have hcomp : (BatchItem.propertyId ∘ fun pid => (batch_valuate_one db cy pid uid).1)
        = id :=
      funext fun pid => (batch_valuate_one_spec db cy pid uid).1
    rw [hcomp, List.map_id]

/-- Witness for C7: two ids where the first has no property row (a
per-item failure) and the second valuates; both entries appear, in
order, and the failure does not abort the second item. -/
theorem C7_batch_items_independent_witness :
    (batch_valuation dbC7 2024 (some 1) [42, 7]).1
      = .ok { results := [42, 7].map fun pid => (batch_valuate_one dbC7 2024 pid (some 1)).1
              total_requested := 2
              successful := (([42, 7].map fun pid =>
                (batch_valuate_one dbC7 2024 pid (some 1)).1).filter
                  fun r2 => r2.isSuccess).length
              errors := 2 - (([42, 7].map fun pid =>
                (batch_valuate_one dbC7 2024 pid (some 1)).1).filter
                  fun r2 => r2.isSuccess).length }
    ∧ (([42, 7].map fun pid => (batch_valuate_one dbC7 2024 pid (some 1)).1).map
        BatchItem.propertyId) = [42, 7]
    ∧ (batch_valuate_one dbC7 2024 42 (some 1)).1.isSuccess = false
    ∧ (batch_valuate_one dbC7 2024 7 (some 1)).1.isSuccess = true := by
  have h := C7_batch_items_independent dbC7 2024 (some 1) [42, 7] (by decide)
  exact ⟨h.1, h.2, rfl, rfl⟩

set_option maxRecDepth 1000000

/-- C4 at a failing input: a decodable one-row CSV whose single row
fails classification. The per-row final update stores the one-line
error log, but the spawned completion update then sets the status to
completed AND overwrites the error log with none, so the completed
record shows one error record and no error log — contradicting
"stored error log is none iff zero rows failed". -/
theorem C4_completed_job_error_log_wiped :
    ((findBatch (process_csv_file (create_batch_record emptyDb "data.csv" "csv" 1).2 1
        dateT csv1).2 1).map fun b => (b.status, b.error_records, b.error_log))
      = some ("processing", 1,
          some "Row 2: Validation error: Unknown record type or missing required fields")
    ∧ ((findBatch (upload_and_process emptyDb 1 "data.csv" "csv" dateT csv1).2 1).map
        fun b => (b.status, b.error_records, b.error_log))
      = some ("completed", 1, none) := by
  exact ⟨by decide, by decide⟩

/-- C5 at the spec example: 250 data rows, 10 malformed. The per-row
loop accumulates total 250, processed 240, errors 10 and a 10-line log
whose lines carry the header-offset row numbers, and the final per-row
update stores them; the completion update then reports the counts and
status completed but wipes the stored log to none. -/
theorem C5_csv_accounting_log_wiped :
    ((findBatch (process_csv_file (create_batch_record emptyDb "batch.csv" "csv" 1).2 1
        dateT csv250).2 1).map fun b =>
          (b.total_records, b.processed_records, b.error_records, b.error_log.isSome,
           b.status))
      = some (250, 240, 10, true, "processing")
    ∧ ((findBatch (upload_and_process emptyDb 1 "batch.csv" "csv" dateT csv250).2 1).map
        fun b =>
          (b.total_records, b.processed_records, b.error_records, b.error_log.isSome,
           b.status))
      = some (250, 240, 10, false, "completed")
    ∧ (row_error_lines dateT ["parcel_id", "address"]
        (List.replicate 240 goodRow ++ List.replicate 10 badRow) 0).length = 10
    ∧ (row_error_lines dateT ["parcel_id", "address"]
        (List.replicate 240 goodRow ++ List.replicate 10 badRow) 0).head?
      = some "Row 242: Validation error: Unknown record type or missing required fields" := by
  exact ⟨by decide, by decide, by decide, by decide⟩
